import Mathlib

/-!
Verification development for the VulCan event-stream processor and report
synthesizer (`src/vulcan/agent_core/agent_handlers.py`, class
`ReasoningHandler`).

The Python code is shallowly embedded: dictionaries of untyped values become
the inductive `Value`, the handler's mutable attributes become the structure
`HandlerState`, and `ReasoningHandler.__call__` becomes the pure transition
function `handlerCall` which returns the successor state together with an
optional propagated Python exception (`StopIteration` from the step-budget
check, or `TypeError`/`AttributeError`/... from ill-typed inputs).  Operator
facing output (`print`/`console.print`) is modelled as an append-only render
log of `RenderItem`s: entries that matter to the specification (the step line
of a rendered tool invocation, the limit-reached notice, reasoning lines) are
tracked precisely; purely decorative text (ANSI colours, separators) is
abstracted away.
-/

/-- Python exceptions that the embedded code can raise. -/
inductive PyErr where
  | stopIteration
  | typeError
  | attributeError
  | valueError
  | jsonDecodeError
  | agentError
deriving Repr, DecidableEq

/-- Untyped Python values, as they occur in tool inputs and memory records. -/
inductive Value where
  | vstr (s : String)
  | vint (n : Int)
  | vbool (b : Bool)
  | vnone
  | vlist (xs : List Value)
  | vdict (fields : List (String × Value))
deriving Repr

mutual

/-- Structural equality on `Value` used for dictionary keys and `==` against
string literals.  (Python additionally identifies `1 == True`; the embedded
code only ever compares against string literals, where the two notions
agree.) -/
def beqValue : Value → Value → Bool
  | .vstr a, .vstr b => a == b
  | .vint a, .vint b => a == b
  | .vbool a, .vbool b => a == b
  | .vnone, .vnone => true
  | .vlist a, .vlist b => beqValueList a b
  | .vdict a, .vdict b => beqValuePairs a b
  | _, _ => false

/-- Elementwise equality of value lists. -/
def beqValueList : List Value → List Value → Bool
  | [], [] => true
  | a :: as_, b :: bs => beqValue a b && beqValueList as_ bs
  | _, _ => false

/-- Elementwise equality of key/value pair lists. -/
def beqValuePairs : List (String × Value) → List (String × Value) → Bool
  | [], [] => true
  | (ka, va) :: as_, (kb, vb) :: bs => ka == kb && beqValue va vb && beqValuePairs as_ bs
  | _, _ => false

end

instance : BEq Value := ⟨beqValue⟩

/-- Python truthiness (`bool(v)`). -/
def truthy : Value → Bool
  | .vstr s => !s.isEmpty
  | .vint n => n != 0
  | .vbool b => b
  | .vnone => false
  | .vlist xs => !xs.isEmpty
  | .vdict fields => !fields.isEmpty

/-- Python `v == "lit"` for a string literal. -/
def isStrEq : Value → String → Bool
  | .vstr s, t => s == t
  | _, _ => false

/-- Python `d.get(k, default)` on a dictionary represented as an ordered
association list (keys are unique in every dictionary the code builds). -/
def dget (fields : List (String × Value)) (k : String) (default : Value) : Value :=
  match fields.find? (fun p => p.1 == k) with
  | some p => p.2
  | none => default

/-- Python `d[k] = v`: overwrite in place, or append a new key at the end
(dictionaries preserve insertion order). -/
def dset (fields : List (String × Value)) (k : String) (v : Value) :
    List (String × Value) :=
  if fields.any (fun p => p.1 == k) then
    fields.map (fun p => if p.1 == k then (k, v) else p)
  else fields ++ [(k, v)]

/-- Python `str.lstrip()` (leading-whitespace removal). -/
def lstrip (s : String) : String := String.mk (s.toList.dropWhile Char.isWhitespace)

/-- The whitespace set of Python `str.strip()` (the ASCII part). -/
def isPySpace (c : Char) : Bool :=
  c == ' ' || c == '\t' || c == '\n' || c == '\r' || c == '\x0b' || c == '\x0c'

/-- Python `str.strip()`. -/
def pyStrip (s : String) : String :=
  String.mk ((s.toList.dropWhile isPySpace).reverse.dropWhile isPySpace).reverse

/-- Python `text.replace("\r", "")`. -/
def removeCR (s : String) : String :=
  String.mk (s.toList.filter (fun c => !(c == '\r')))

/-- Python `s.split("\n")` over the character list. -/
def splitLinesChar : List Char → List (List Char)
  | [] => [[]]
  | x :: xs =>
    let r := splitLinesChar xs
    if x == '\n' then [] :: r
    else
      match r with
      | [] => [[x]]
      | y :: ys => (x :: y) :: ys

/-- Python `s.split("\n")`. -/
def splitLines (s : String) : List String := (splitLinesChar s.toList).map String.mk

/-- Python `s.startswith(t)`. -/
def strStarts (s t : String) : Bool := t.toList.isPrefixOf s.toList

/-- Python `s.endswith(t)`. -/
def strEnds (s t : String) : Bool := t.toList.isSuffixOf s.toList

/-- Fuelled scan of Python `s.replace(pat, rep)` over character lists; every
step consumes at least one input character, so fuel equal to the input
length is exact. -/
def replaceListAux (p : Char) (ps rep : List Char) : Nat → List Char → List Char
  | _, [] => []
  | 0, l => l
  | fuel + 1, x :: xs =>
    if (p :: ps).isPrefixOf (x :: xs) then
      rep ++ replaceListAux p ps rep fuel (xs.drop ps.length)
    else x :: replaceListAux p ps rep fuel xs

/-- Python `s.replace(pat, rep)` (all occurrences, left to right; the
pattern is non-empty at every call site). -/
def pyReplaceStr (s pat rep : String) : String :=
  match pat.toList with
  | [] => s
  | p :: ps => String.mk (replaceListAux p ps rep.toList s.toList.length s.toList)

/-- Accumulate decimal digits. -/
def digitsToNatAux (ds : List Char) : Nat :=
  ds.foldl (fun a c => a * 10 + (c.toNat - 48)) 0

/-- The digits of a decimal literal, or `none`. -/
def digitsValue : List Char → Option Nat
  | [] => none
  | l => if l.all Char.isDigit then some (digitsToNatAux l) else none

/-- Python `int(s)` on strings: surrounding whitespace, an optional sign and
a non-empty run of decimal digits. -/
def parseIntStr (s : String) : Option Int :=
  match (pyStrip s).toList with
  | '-' :: rest => (digitsValue rest).map (fun n => -(n : Int))
  | '+' :: rest => (digitsValue rest).map (fun n => (n : Int))
  | rest => (digitsValue rest).map (fun n => (n : Int))

/-- Python `" ".join(xs)` over a list value: every element must be a string,
otherwise `TypeError`. -/
def joinSpace : List Value → Option String
  | [] => some ""
  | [.vstr s] => some s
  | .vstr s :: rest => (joinSpace rest).map (fun r => s ++ " " ++ r)
  | _ => none

/-- Python `sep.join(xs)` with an arbitrary separator, again requiring every
element to be a string. -/
def joinWith (sep : String) : List Value → Option String
  | [] => some ""
  | [.vstr s] => some s
  | .vstr s :: rest => (joinWith sep rest).map (fun r => s ++ sep ++ r)
  | _ => none

/-- Truthiness of `x.strip() if isinstance(x, str) else x`, the idiom the
validity check applies to command/content/query/path fields. -/
def truthyStripped : Value → Bool
  | .vstr s => !(pyStrip s).isEmpty
  | v => truthy v

mutual

/-- Best-effort model of Python `str(v)`.  Only display strings depend on it
(step lines and the `tools_used` summaries); no specification claim inspects
the exact text of a container rendering. -/
def pyStr : Value → String
  | .vstr s => s
  | .vint n => toString n
  | .vbool b => if b then "True" else "False"
  | .vnone => "None"
  | .vlist xs => "[" ++ pyReprList xs ++ "]"
  | .vdict fields => "\x7b" ++ pyReprPairs fields ++ "\x7d"

/-- Best-effort model of Python `repr(v)` (strings gain quotes). -/
def pyRepr : Value → String
  | .vstr s => "\x27" ++ s ++ "\x27"
  | .vint n => toString n
  | .vbool b => if b then "True" else "False"
  | .vnone => "None"
  | .vlist xs => "[" ++ pyReprList xs ++ "]"
  | .vdict fields => "\x7b" ++ pyReprPairs fields ++ "\x7d"

/-- Comma-separated reprs of list elements. -/
def pyReprList : List Value → String
  | [] => ""
  | [x] => pyRepr x
  | x :: xs => pyRepr x ++ ", " ++ pyReprList xs

/-- Comma-separated reprs of dictionary items. -/
def pyReprPairs : List (String × Value) → String
  | [] => ""
  | [(k, v)] => "\x27" ++ k ++ "\x27: " ++ pyRepr v
  | (k, v) :: xs => "\x27" ++ k ++ "\x27: " ++ pyRepr v ++ ", " ++ pyReprPairs xs

end

/-- Python `int(v)`: `none` models the `TypeError`/`ValueError` raised on
inconvertible values.  (String conversion is approximated by decimal-literal
parsing, which matches Python on the inputs this code can meet.) -/
def pyInt : Value → Option Int
  | .vint n => some n
  | .vbool b => some (if b then 1 else 0)
  | .vstr s => parseIntStr s
  | _ => none

/-- Python `v[:n]` — defined for strings and lists, `TypeError` otherwise. -/
def pySlicePrefix : Value → Nat → Except PyErr Value
  | .vstr s, n => .ok (.vstr (s.take n))
  | .vlist xs, n => .ok (.vlist (xs.take n))
  | _, _ => .error .typeError

/-- Python `len(v)` — defined for strings, lists and dictionaries. -/
def pyLen : Value → Except PyErr Nat
  | .vstr s => .ok s.length
  | .vlist xs => .ok xs.length
  | .vdict fields => .ok fields.length
  | _ => .error .typeError

/-- Helper for the substring test: does `needle` occur in the list? -/
def listContainsRun (needle : List Char) : List Char → Bool
  | [] => needle.isEmpty
  | c :: rest => needle.isPrefixOf (c :: rest) || listContainsRun needle rest

/-- Substring test (`needle in haystack` for Python strings). -/
def strContains (haystack needle : String) : Bool :=
  listContainsRun needle.toList haystack.toList

/-- `ReasoningHandler._is_valid_tool_use` (agent_handlers.py lines 173-201),
translated clause by clause.  The result is `.error .typeError` exactly when
the Python code would raise (a `shell` command list containing a non-string
makes `" ".join(command)` raise `TypeError`). -/
def is_valid_tool_use (tool_name : String) (tool_input : Value) : Except PyErr Bool :=
  match tool_input with
  | .vdict fields =>
    if fields.isEmpty then .ok false
    else if tool_name == "shell" then
      match dget fields "command" (.vstr "") with
      | .vlist xs =>
        if xs.isEmpty then .ok false
        else
          match joinSpace xs with
          | some s => .ok (!(pyStrip s).isEmpty)
          | none => .error .typeError
      | .vstr s => .ok (!(pyStrip s).isEmpty)
      | v => .ok (truthy v)
    else if tool_name == "mem0_memory" then
      let action := dget fields "action" (.vstr "")
      if isStrEq action "store" then
        .ok (truthyStripped (dget fields "content" (.vstr "")))
      else if isStrEq action "retrieve" then
        .ok (truthyStripped (dget fields "query" (.vstr "")))
      else if isStrEq action "list" || isStrEq action "delete" ||
              isStrEq action "get" || isStrEq action "history" then
        .ok true
      else .ok false
    else if tool_name == "file_write" then
      .ok (truthy (dget fields "path" .vnone) && truthy (dget fields "content" .vnone))
    else if tool_name == "editor" then
      .ok (truthy (dget fields "command" .vnone) && truthy (dget fields "path" .vnone))
    else if tool_name == "load_tool" then
      .ok (truthyStripped (dget fields "path" (.vstr "")))
    else .ok true
  | _ => .ok false

/-- One attempted tool call, as delivered inside events.  The runtime supplies
`toolUseId` and `name` as strings (`tool_use.get("toolUseId", "")`,
`tool_use.get("name", "")`); `input` is an arbitrary value
(`tool_use.get("input", {})`). -/
structure ToolUse where
  toolUseId : String
  name : String
  input : Value
deriving Repr

/-- One tool outcome (`toolResult` payload): correlating id and provider
status (`tool_result.get("status", "unknown")`).  The result's content blocks
are only ever printed, never stored into statistics, and are abstracted
away. -/
structure ToolResult where
  toolUseId : String
  status : Value
deriving Repr

/-- One content block of a composite message event. -/
inductive Block where
  | textBlock (text : String)
  | toolUseBlock (tu : ToolUse)
  | toolResultBlock (tr : ToolResult)
  | otherBlock
deriving Repr

/-- The event shapes `ReasoningHandler.__call__` discriminates, in the order
the code tests its `kwargs`. -/
inductive Event where
  | data (text : String)
  | message (content : List Block)
  | currentToolUse (tool : ToolUse)
  | toolResultEvent (tr : ToolResult)
  | lifecycle
deriving Repr

/-- Entries of the operator-facing render log.  `toolExecution` records the
`Step n/max: name` line printed once per rendered invocation; `limitNotice`
records the step-limit notice; decorative detail lines become `toolDetail`. -/
inductive RenderItem where
  | reasoningHeader
  | reasoningFooter
  | reasoningLine (line : String)
  | toolExecution (toolUseId : String) (name : String) (step : Nat)
  | toolDetail (line : String)
  | toolResultOut (toolUseId : String)
  | limitNotice
  | lifecycleOut
deriving Repr

/-- The mutable attributes of `ReasoningHandler` (constructor, lines 33-57).
`env_disable_parallel` captures the `VULCAN_DISABLE_PARALLEL` environment
variable read by the shell display (constant during a run); `rendered` is the
abstract render log. -/
structure HandlerState where
  current_reasoning_buffer : String
  reasoning_header_printed : Bool
  steps : Nat
  max_steps : Nat
  memory_operations : Nat
  created_tools : List String
  tools_used : List String
  tool_effectiveness : List (String × Nat × Nat)
  last_was_reasoning : Bool
  last_was_tool : Bool
  shown_tools : List String
  tool_use_map : List (String × ToolUse)
  tool_results : List (String × ToolResult)
  suppress_parent_output : Bool
  step_limit_reached : Bool
  stop_tool_used : Bool
  report_generated : Bool
  operation_id : String
  env_disable_parallel : Bool
  rendered : List RenderItem
deriving Repr

/-- `ReasoningHandler.__init__(max_steps, operation_id)` with the environment
variable unset (parallel execution not disabled). -/
def initState (max_steps : Nat) (operation_id : String) : HandlerState :=
  { current_reasoning_buffer := ""
    reasoning_header_printed := false
    steps := 0
    max_steps := max_steps
    memory_operations := 0
    created_tools := []
    tools_used := []
    tool_effectiveness := []
    last_was_reasoning := false
    last_was_tool := false
    shown_tools := []
    tool_use_map := []
    tool_results := []
    suppress_parent_output := false
    step_limit_reached := false
    stop_tool_used := false
    report_generated := false
    operation_id := operation_id
    env_disable_parallel := false
    rendered := [] }

/-- Association-list update with Python dictionary semantics: overwrite the
existing key in place, else append. -/
def updAssoc {α : Type} (l : List (String × α)) (k : String) (v : α) :
    List (String × α) :=
  if l.any (fun p => p.1 == k) then
    l.map (fun p => if p.1 == k then (k, v) else p)
  else l ++ [(k, v)]

/-- Keyed lookup in an association list (`d[k]` / `k in d`). -/
def lookupAssoc {α : Type} (l : List (String × α)) (k : String) : Option α :=
  match l.find? (fun p => p.1 == k) with
  | some p => some p.2
  | none => none

/-- The body of the `while "\n" in buffer` loop in `_handle_text_block`:
render one complete line (blank lines are swallowed; the reasoning header is
opened once per contiguous run). -/
def emitReasoningLine (st : HandlerState) (line : String) : HandlerState :=
  if (pyStrip line).isEmpty then st
  else
    let st :=
      if !st.reasoning_header_printed then
        { st with rendered := st.rendered ++ [RenderItem.reasoningHeader]
                  reasoning_header_printed := true
                  last_was_tool := false }
      else st
    { st with rendered := st.rendered ++ [RenderItem.reasoningLine (lstrip line)]
              last_was_reasoning := true }

/-- `ReasoningHandler._handle_text_block` (lines 203-226): append the fragment
to the buffer (dropping carriage returns), emit every complete line, and keep
the trailing remainder buffered. -/
def handle_text_block (st : HandlerState) (text : String) : HandlerState :=
  let buf := st.current_reasoning_buffer ++ removeCR text
  let parts := splitLines buf
  let lines := parts.dropLast
  let rest := (parts.getLast?).getD ""
  let st := lines.foldl emitReasoningLine st
  { st with current_reasoning_buffer := rest }

/-- First half of `_show_tool_execution` (lines 230-245): flush any remaining
reasoning-buffer text as one rendered line. -/
def flushReasoningBuffer (st : HandlerState) : HandlerState :=
  if st.current_reasoning_buffer.isEmpty then st
  else
    let remaining := st.current_reasoning_buffer
    let st := { st with current_reasoning_buffer := "" }
    let st :=
      if !st.reasoning_header_printed then
        { st with rendered := st.rendered ++ [RenderItem.reasoningHeader]
                  reasoning_header_printed := true
                  last_was_tool := false }
      else st
    { st with rendered := st.rendered ++ [RenderItem.reasoningLine (lstrip remaining)]
              last_was_reasoning := true }

/-- Lines 247-249 of `_show_tool_execution`: close an open reasoning block. -/
def closeReasoningHeader (st : HandlerState) : HandlerState :=
  if st.reasoning_header_printed then
    { st with rendered := st.rendered ++ [RenderItem.reasoningFooter]
              reasoning_header_printed := false }
  else st

/-- The state-relevant effect of one `_display_*` helper: detail lines
printed before any exception, the `tools_used` entries appended, the
`created_tools` entries appended, whether `stop_tool_used` was set, and the
exception (if any) the helper raised.  Factoring the display helpers through
this record mirrors the fact that they mutate the handler only through these
five channels. -/
structure DisplayOutcome where
  details : List RenderItem
  used : List String
  created : List String
  stopSet : Bool
  exn : Option PyErr
deriving Repr

/-- `_display_shell_tool` (lines 302-337).  The in-place
`tool_input["parallel"] = False` downgrade is applied before the mode is
computed, exactly as in the source. -/
def display_shell_tool (env_disable_parallel : Bool) (fields : List (String × Value)) :
    DisplayOutcome :=
  let is_parallel_requested := truthy (dget fields "parallel" (.vbool false))
  let noticeLines : List RenderItem :=
    if env_disable_parallel && is_parallel_requested then
      [.toolDetail "[NOTICE] User disabled parallel execution. Running commands sequentially."]
    else []
  let fields :=
    if env_disable_parallel && is_parallel_requested then dset fields "parallel" (.vbool false)
    else fields
  let command := dget fields "command" (.vstr "")
  let parallel := truthy (dget fields "parallel" (.vbool false))
  let mode := if parallel then "parallel" else "sequential"
  match command with
  | .vlist xs =>
    let strs := xs.map pyStr
    let unique_commands := strs.foldl (fun acc s => if acc.contains s then acc else acc ++ [s]) []
    let num_unique := unique_commands.length
    { details := noticeLines ++
        [.toolDetail ("Executing " ++ toString num_unique ++ " commands (" ++ mode ++ ")")] ++
        unique_commands.map (fun c => .toolDetail c)
      used := ["shell: " ++ toString num_unique ++ " commands (" ++ mode ++ ")"]
      created := []
      stopSet := false
      exn := none }
  | c =>
    { details := noticeLines ++ [.toolDetail ("Running: " ++ pyStr c)]
      used := ["shell: " ++ pyStr c]
      created := []
      stopSet := false
      exn := none }

/-- `_display_file_write_tool` (lines 339-347).  A non-string `path` makes
`path.startswith("tools/")` raise `AttributeError` after the preview lines
were already printed. -/
def display_file_write_tool (fields : List (String × Value)) : DisplayOutcome :=
  let path := dget fields "path" (.vstr "")
  let content_preview := (pyStr (dget fields "content" (.vstr ""))).take 50
  let previewLines : List RenderItem :=
    [.toolDetail ("Writing: " ++ pyStr path)] ++
    (if content_preview.isEmpty then [] else [.toolDetail ("Content: " ++ content_preview ++ "...")])
  match path with
  | .vstr p =>
    { details := previewLines
      used := ["file_write: " ++ p]
      created :=
        if strStarts p "tools/" then [pyReplaceStr (pyReplaceStr p "tools/" "") ".py" ""]
        else []
      stopSet := false
      exn := none }
  | _ => { details := previewLines, used := [], created := [], stopSet := false
           exn := some .attributeError }

/-- `_display_editor_tool` (lines 349-384).  The file-content dump is
print-only and is abstracted to a single detail line; a non-string `path`
raises once the `create`-with-text branch reaches `path.startswith`. -/
def display_editor_tool (fields : List (String × Value)) : DisplayOutcome :=
  let command := dget fields "command" (.vstr "")
  let path := dget fields "path" (.vstr "")
  let file_text := dget fields "file_text" (.vstr "")
  let headLines : List RenderItem :=
    [.toolDetail ("Editor: " ++ pyStr command), .toolDetail ("Path: " ++ pyStr path)]
  if isStrEq command "create" && truthy file_text then
    match path with
    | .vstr p =>
      { details := headLines ++ [.toolDetail "FILE CONTENT"]
        used := ["editor: " ++ pyStr command ++ " " ++ p]
        created :=
          if strStarts p "tools/" && strEnds p ".py" then
            [pyReplaceStr (pyReplaceStr p "tools/" "") ".py" ""]
          else []
        stopSet := false
        exn := none }
    | _ => { details := headLines, used := [], created := [], stopSet := false
             exn := some .attributeError }
  else
    { details := headLines
      used := ["editor: " ++ pyStr command ++ " " ++ pyStr path]
      created := [], stopSet := false, exn := none }

/-- `_display_load_tool` (lines 386-389). -/
def display_load_tool (fields : List (String × Value)) : DisplayOutcome :=
  let path := dget fields "path" (.vstr "")
  { details := [.toolDetail ("Loading: " ++ pyStr path)]
    used := ["load_tool: " ++ pyStr path]
    created := [], stopSet := false, exn := none }

/-- `_display_stop_tool` (lines 391-395): the only place that sets
`stop_tool_used`. -/
def display_stop_tool (fields : List (String × Value)) : DisplayOutcome :=
  let reason := dget fields "reason" (.vstr "No reason provided")
  { details := [.toolDetail ("Stopping: " ++ pyStr reason)]
    used := ["stop: " ++ pyStr reason]
    created := [], stopSet := true, exn := none }

/-- `_display_mem0_memory_tool` (lines 397-424).  All branches are
print-only; the summary entry always records the action. -/
def display_mem0_memory_tool (fields : List (String × Value)) : DisplayOutcome :=
  let action := dget fields "action" (.vstr "")
  { details := [.toolDetail ("mem0_memory action: " ++ pyStr action)]
    used := ["mem0_memory: " ++ pyStr action]
    created := [], stopSet := false, exn := none }

/-- `_display_swarm_tool` (lines 426-469).  `task.split(". ")` raises
`AttributeError` on a non-string task; `int(swarm_size)` raises on an
inconvertible size; `", ".join(tools)` raises on a list containing a
non-string. -/
def display_swarm_tool (fields : List (String × Value)) : DisplayOutcome :=
  let task := dget fields "task" (.vstr "")
  let swarm_size := dget fields "swarm_size" (.vint 1)
  let pattern := dget fields "coordination_pattern" (.vstr "collaborative")
  let tools := dget fields "tools" (.vlist [])
  match task with
  | .vstr t =>
    match pyInt swarm_size with
    | none => { details := [.toolDetail ("Swarm task: " ++ t)], used := []
                created := [], stopSet := false, exn := some .typeError }
    | some n =>
      let toolsJoin : Option String :=
        if truthy tools then
          match tools with
          | .vlist xs => joinWith ", " xs
          | v => some (pyStr v)
        else some ""
      match toolsJoin with
      | none => { details := [.toolDetail ("Swarm task: " ++ t)], used := []
                  created := [], stopSet := false, exn := some .typeError }
      | some _ =>
        { details := [.toolDetail ("Swarm task: " ++ t),
                      .toolDetail ("Agents: " ++ toString n)]
          used := ["swarm: " ++ toString n ++ " agents, " ++ pyStr pattern]
          created := [], stopSet := false, exn := none }
  | _ => { details := [], used := [], created := [], stopSet := false
           exn := some .attributeError }

/-- `_display_http_request_tool` (lines 471-475). -/
def display_http_request_tool (fields : List (String × Value)) : DisplayOutcome :=
  let method := dget fields "method" (.vstr "GET")
  let url := dget fields "url" (.vstr "")
  { details := [.toolDetail ("HTTP Request: " ++ pyStr method ++ " " ++ pyStr url)]
    used := ["http_request: " ++ pyStr method ++ " " ++ pyStr url]
    created := [], stopSet := false, exn := none }

/-- `_display_think_tool` (lines 477-484).  The thought preview slices the
value, so a non-string, non-list thought raises `TypeError` at `len`, and a
long list thought raises at `list + str`. -/
def display_think_tool (fields : List (String × Value)) : DisplayOutcome :=
  let thought := dget fields "thought" (.vstr "")
  let cycle_count := dget fields "cycle_count" (.vint 1)
  let headLine : RenderItem := .toolDetail ("Thinking (" ++ pyStr cycle_count ++ " cycles)")
  match pyLen thought with
  | .error e => { details := [headLine], used := [], created := [], stopSet := false
                  exn := some e }
  | .ok n =>
    if n > 500 then
      match thought with
      | .vstr s =>
        { details := [headLine, .toolDetail ("Thought: " ++ s.take 500 ++ "...")]
          used := ["think: " ++ pyStr cycle_count ++ " cycles"]
          created := [], stopSet := false, exn := none }
      | _ => { details := [headLine], used := [], created := [], stopSet := false
               exn := some .typeError }
    else
      { details := [headLine, .toolDetail ("Thought: " ++ pyStr thought)]
        used := ["think: " ++ pyStr cycle_count ++ " cycles"]
        created := [], stopSet := false, exn := none }

/-- `_display_generic_tool` (lines 486-500). -/
def display_generic_tool (tool_name : String) (fields : List (String × Value)) :
    DisplayOutcome :=
  if !fields.isEmpty then
    let key_params := (fields.map (fun p => p.1)).take 2
    let params_str := String.intercalate ", "
      (key_params.map (fun k =>
        let s := pyStr (dget fields k .vnone)
        k ++ "=" ++ s.take 50 ++ (if s.length > 50 then "..." else "")))
    let keysRepr := "[" ++ String.intercalate ", "
      ((fields.map (fun p => p.1)).map (fun k => "\x27" ++ k ++ "\x27")) ++ "]"
    { details := [.toolDetail ("Parameters: " ++ params_str)]
      used := [tool_name ++ ": " ++ keysRepr]
      created := [], stopSet := false, exn := none }
  else
    { details := [.toolDetail ("Executing: " ++ tool_name)]
      used := [tool_name ++ ": no params"]
      created := [], stopSet := false, exn := none }

/-- Dispatch of `_show_tool_execution`'s tool-specific display section
(lines 276-296), as a pure outcome. -/
def displayToolOutcome (env_disable_parallel : Bool) (tool_name : String)
    (fields : List (String × Value)) : DisplayOutcome :=
  if tool_name == "shell" then display_shell_tool env_disable_parallel fields
  else if tool_name == "file_write" then display_file_write_tool fields
  else if tool_name == "editor" then display_editor_tool fields
  else if tool_name == "load_tool" then display_load_tool fields
  else if tool_name == "stop" then display_stop_tool fields
  else if tool_name == "mem0_memory" then display_mem0_memory_tool fields
  else if tool_name == "swarm" then display_swarm_tool fields
  else if tool_name == "http_request" then display_http_request_tool fields
  else if tool_name == "think" then display_think_tool fields
  else display_generic_tool tool_name fields

/-- Apply a display outcome to the handler state (the five mutation channels
of the `_display_*` helpers). -/
def applyDisplay (st : HandlerState) (o : DisplayOutcome) : HandlerState × Option PyErr :=
  ({ st with rendered := st.rendered ++ o.details
             tools_used := st.tools_used ++ o.used
             created_tools := st.created_tools ++ o.created
             stop_tool_used := st.stop_tool_used || o.stopSet }, o.exn)

/-- `ReasoningHandler._show_tool_execution` (lines 228-300): flush and close
the reasoning block, check the step budget (raising `StopIteration` and
setting `step_limit_reached` without incrementing the counter when the budget
is exhausted), otherwise count the step, render the step line and run the
tool-specific display. -/
def show_tool_execution (st : HandlerState) (tu : ToolUse) : HandlerState × Option PyErr :=
  let st := flushReasoningBuffer st
  let st := closeReasoningHeader st
  if st.max_steps ≤ st.steps && !st.step_limit_reached then
    ({ st with step_limit_reached := true
               rendered := st.rendered ++ [RenderItem.limitNotice] }, some .stopIteration)
  else
    let st := { st with steps := st.steps + 1 }
    let st := { st with rendered :=
      st.rendered ++ [RenderItem.toolExecution tu.toolUseId tu.name st.steps] }
    let fields := match tu.input with | .vdict fs => fs | _ => []
    let (st, exn) := applyDisplay st (displayToolOutcome st.env_disable_parallel tu.name fields)
    match exn with
    | some e => (st, some e)
    | none => ({ st with last_was_tool := true, last_was_reasoning := false }, none)

/-- `_show_tool_result` (lines 502-614): the result display is entirely
print-only; it is abstracted to one render event. -/
def show_tool_result (st : HandlerState) (tool_id : String) (_tr : ToolResult) :
    HandlerState :=
  { st with rendered := st.rendered ++ [RenderItem.toolResultOut tool_id] }

/-- `_track_tool_effectiveness` (lines 616-628). -/
def track_tool_effectiveness (st : HandlerState) (tool_id : String) (tr : ToolResult) :
    HandlerState :=
  let tool_name :=
    match lookupAssoc st.tool_use_map tool_id with
    | some tu => tu.name
    | none => "unknown"
  let cur :=
    match (st.tool_effectiveness.find? (fun p => p.1 == tool_name)) with
    | some p => p.2
    | none => (0, 0)
  let updated := if isStrEq tr.status "success" then (cur.1 + 1, cur.2) else (cur.1, cur.2 + 1)
  { st with tool_effectiveness := updAssoc st.tool_effectiveness tool_name updated }

/-- The text-block pass over a composite message's content (lines 86-89). -/
def processTextBlocks (st : HandlerState) (content : List Block) : HandlerState :=
  content.foldl
    (fun st b =>
      match b with
      | .textBlock t => handle_text_block st t
      | _ => st)
    st

/-- The tool-use pass over a composite message's content (lines 92-105): an
already-shown id is skipped; a new id is validity-checked, recorded into the
shown set and the id map, and rendered.  Both `StopIteration` from the budget
check and any display exception abort the remaining blocks. -/
def processToolUseBlocks (st : HandlerState) : List Block → HandlerState × Option PyErr
  | [] => (st, none)
  | .toolUseBlock tu :: rest =>
    if st.shown_tools.contains tu.toolUseId then processToolUseBlocks st rest
    else
      match is_valid_tool_use tu.name tu.input with
      | .error e => (st, some e)
      | .ok false => processToolUseBlocks st rest
      | .ok true =>
        let st := { st with shown_tools := st.shown_tools ++ [tu.toolUseId]
                            tool_use_map := updAssoc st.tool_use_map tu.toolUseId tu }
        match show_tool_execution st tu with
        | (st, some e) => (st, some e)
        | (st, none) =>
          let st := { st with last_was_tool := true, last_was_reasoning := false }
          processToolUseBlocks st rest
  | _ :: rest => processToolUseBlocks st rest

/-- The tool-result pass over a composite message's content (lines 108-125):
results for unknown ids are discarded; matched results are stored, rendered,
counted into the per-tool effectiveness table, and a `mem0_memory`/`store`
invocation bumps the memory-operation counter. -/
def processToolResultBlocks (st : HandlerState) : List Block → HandlerState × Option PyErr
  | [] => (st, none)
  | .toolResultBlock tr :: rest =>
    let tool_id := tr.toolUseId
    match lookupAssoc st.tool_use_map tool_id with
    | none => processToolResultBlocks st rest
    | some tu =>
      let st := { st with tool_results := updAssoc st.tool_results tool_id tr }
      let st := show_tool_result st tool_id tr
      let st := track_tool_effectiveness st tool_id tr
      if tu.name == "mem0_memory" then
        match tu.input with
        | .vdict fs =>
          let st :=
            if isStrEq (dget fs "action" .vnone) "store" then
              { st with memory_operations := st.memory_operations + 1 }
            else st
          processToolResultBlocks st rest
        | _ => (st, some .attributeError)
      else processToolResultBlocks st rest
  | _ :: rest => processToolResultBlocks st rest

/-- `ReasoningHandler.__call__` (lines 69-171): the sole public entry point.
Returns the successor state and the exception propagated to the caller, if
any.  Once `step_limit_reached` is set the call returns immediately with the
state untouched. -/
def handlerCall (st : HandlerState) (ev : Event) : HandlerState × Option PyErr :=
  if st.step_limit_reached then (st, none)
  else
    match ev with
    | .data text => (handle_text_block st text, none)
    | .message content =>
      let st := processTextBlocks st content
      match processToolUseBlocks st content with
      | (st, some e) => (st, some e)
      | (st, none) =>
        match processToolResultBlocks st content with
        | (st, some e) => (st, some e)
        | (st, none) => ({ st with suppress_parent_output := true }, none)
    | .currentToolUse tool =>
      match is_valid_tool_use tool.name tool.input with
      | .error e => (st, some e)
      | .ok v =>
        if v && !(st.shown_tools.contains tool.toolUseId) then
          let st := { st with shown_tools := st.shown_tools ++ [tool.toolUseId]
                              tool_use_map := updAssoc st.tool_use_map tool.toolUseId tool }
          match show_tool_execution st tool with
          | (st, some e) => (st, some e)
          | (st, none) => ({ st with last_was_tool := true, last_was_reasoning := false }, none)
        else (st, none)
    | .toolResultEvent tr =>
      match lookupAssoc st.tool_use_map tr.toolUseId with
      | some _ =>
        let st := show_tool_result st tr.toolUseId tr
        let st := track_tool_effectiveness st tr.toolUseId tr
        (st, none)
      | none => (st, none)
    | .lifecycle =>
      if !st.suppress_parent_output then
        ({ st with rendered := st.rendered ++ [RenderItem.lifecycleOut] }, none)
      else (st, none)

/-- Run a sequence of events through the handler, collecting the exception
outcomes (the caller's dispatch loop). -/
def runEvents (st : HandlerState) : List Event → HandlerState × List (Option PyErr)
  | [] => (st, [])
  | e :: rest =>
    let (st, x) := handlerCall st e
    let (st, xs) := runEvents st rest
    (st, x :: xs)

/-- `has_reached_limit` (lines 630-632). -/
def has_reached_limit (st : HandlerState) : Bool := st.max_steps ≤ st.steps

/-- `should_stop` (lines 634-636). -/
def should_stop (st : HandlerState) : Bool := has_reached_limit st || st.stop_tool_used

/-- `get_remaining_steps` (lines 638-640); truncated subtraction coincides
with Python's `max(0, self.max_steps - self.steps)`. -/
def get_remaining_steps (st : HandlerState) : Nat := st.max_steps - st.steps

/-- `get_budget_urgency_level` (lines 642-651). -/
def get_budget_urgency_level (st : HandlerState) : String :=
  let remaining := get_remaining_steps st
  if remaining > 20 then "ABUNDANT"
  else if remaining > 10 then "CONSTRAINED"
  else if remaining > 5 then "CRITICAL"
  else "EMERGENCY"

/-- JSON values as produced by `json.loads`.  Plan payloads in this
repository carry integer `version` fields; JSON numerals with fractional or
exponent parts are outside the model (the parser rejects them). -/
inductive JValue where
  | jnull
  | jbool (b : Bool)
  | jnum (n : Int)
  | jstr (s : String)
  | jarr (xs : List JValue)
  | jobj (fields : List (String × JValue))
deriving Repr

/-- The double-quote character. -/
def quoteChar : Char := Char.ofNat 34

/-- The backslash character. -/
def backslashChar : Char := Char.ofNat 92

/-- Opening curly brace. -/
def lbraceChar : Char := Char.ofNat 123

/-- Closing curly brace. -/
def rbraceChar : Char := Char.ofNat 125

/-- Whitespace skipping inside JSON. -/
def jskipWs (l : List Char) : List Char :=
  l.dropWhile (fun c => c == ' ' || c == '\t' || c == '\n' || c == '\r')

/-- Decode one JSON string escape (the common single-character escapes;
`\uXXXX` is outside the model). -/
def escChar (c : Char) : Option Char :=
  if c == quoteChar then some quoteChar
  else if c == backslashChar then some backslashChar
  else if c == '/' then some '/'
  else if c == 'n' then some '\n'
  else if c == 't' then some '\t'
  else if c == 'r' then some '\r'
  else if c == 'b' then some (Char.ofNat 8)
  else if c == 'f' then some (Char.ofNat 12)
  else none

/-- Parse the characters of a JSON string after the opening quote. -/
def parseStrChars : List Char → Option (List Char × List Char)
  | [] => none
  | c :: rest =>
    if c == quoteChar then some ([], rest)
    else if c == backslashChar then
      match rest with
      | [] => none
      | e :: rest2 =>
        match escChar e with
        | none => none
        | some d => (parseStrChars rest2).map (fun p => (d :: p.1, p.2))
    else (parseStrChars rest).map (fun p => (c :: p.1, p.2))

/-- Digits-to-number accumulation. -/
def digitsToNat (ds : List Char) : Nat :=
  ds.foldl (fun a c => a * 10 + (c.toNat - 48)) 0

/-- Parse a JSON integer numeral (fraction/exponent forms are rejected). -/
def parseNumber (l : List Char) : Option (JValue × List Char) :=
  let (neg, l1) := match l with | '-' :: r => (true, r) | _ => (false, l)
  let (ds, rest) := l1.span Char.isDigit
  if ds.isEmpty then none
  else
    match rest with
    | '.' :: _ => none
    | 'e' :: _ => none
    | 'E' :: _ => none
    | _ =>
      let n : Int := digitsToNat ds
      some (.jnum (if neg then -n else n), rest)

mutual

/-- Fueled recursive-descent JSON value parser. -/
def parseJVal : Nat → List Char → Option (JValue × List Char)
  | 0, _ => none
  | fuel + 1, l =>
    let l := jskipWs l
    match l with
    | 'n' :: 'u' :: 'l' :: 'l' :: rest => some (.jnull, rest)
    | 't' :: 'r' :: 'u' :: 'e' :: rest => some (.jbool true, rest)
    | 'f' :: 'a' :: 'l' :: 's' :: 'e' :: rest => some (.jbool false, rest)
    | c :: rest =>
      if c == quoteChar then
        (parseStrChars rest).map (fun p => (.jstr (String.mk p.1), p.2))
      else if c == lbraceChar then
        let rest1 := jskipWs rest
        match rest1 with
        | d :: rest2 =>
          if d == rbraceChar then some (.jobj [], rest2)
          else
            match parseJMembers fuel rest1 with
            | some (ms, rem) =>
              match jskipWs rem with
              | e :: rem2 => if e == rbraceChar then some (.jobj ms, rem2) else none
              | [] => none
            | none => none
        | [] => none
      else if c == '[' then
        match jskipWs rest with
        | ']' :: rem => some (.jarr [], rem)
        | _ =>
          match parseJItems fuel rest with
          | some (xs, rem) =>
            match jskipWs rem with
            | ']' :: rem2 => some (.jarr xs, rem2)
            | _ => none
          | none => none
      else parseNumber (c :: rest)
    | [] => none

/-- Comma-separated JSON array items. -/
def parseJItems : Nat → List Char → Option (List JValue × List Char)
  | 0, _ => none
  | fuel + 1, l =>
    match parseJVal fuel l with
    | some (x, rem) =>
      match jskipWs rem with
      | ',' :: rem2 =>
        match parseJItems fuel rem2 with
        | some (xs, rem3) => some (x :: xs, rem3)
        | none => none
      | _ => some ([x], rem)
    | none => none

/-- Comma-separated JSON object members. -/
def parseJMembers : Nat → List Char → Option (List (String × JValue) × List Char)
  | 0, _ => none
  | fuel + 1, l =>
    match jskipWs l with
    | c :: rest =>
      if c == quoteChar then
        match parseStrChars rest with
        | some (ks, rem) =>
          match jskipWs rem with
          | ':' :: rem2 =>
            match parseJVal fuel rem2 with
            | some (v, rem3) =>
              match jskipWs rem3 with
              | ',' :: rem4 =>
                match parseJMembers fuel rem4 with
                | some (ms, rem5) => some ((String.mk ks, v) :: ms, rem5)
                | none => none
              | _ => some ([(String.mk ks, v)], rem3)
            | none => none
          | _ => none
        | none => none
      else none
    | [] => none

end

/-- Top-level JSON parse of a whole string. -/
def parseTopJson (s : String) : Option JValue :=
  let cs := s.toList
  match parseJVal (cs.length + 1) cs with
  | some (j, rest) => if (jskipWs rest).isEmpty then some j else none
  | none => none

/-- `json.loads(v)`: non-strings raise `TypeError`, unparsable strings raise
`json.JSONDecodeError`. -/
def json_loads : Value → Except PyErr JValue
  | .vstr s =>
    match parseTopJson s with
    | some j => .ok j
    | none => .error .jsonDecodeError
  | _ => .error .typeError

/-- A run of `n` spaces. -/
def spacesStr (n : Nat) : String := String.mk (List.replicate n ' ')

/-- JSON string escaping for `json.dumps` (the common escapes). -/
def jsonEscapeChar (c : Char) : String :=
  if c == quoteChar then String.mk [backslashChar, quoteChar]
  else if c == backslashChar then String.mk [backslashChar, backslashChar]
  else if c == '\n' then String.mk [backslashChar, 'n']
  else if c == '\t' then String.mk [backslashChar, 't']
  else if c == '\r' then String.mk [backslashChar, 'r']
  else String.singleton c

/-- Quoted, escaped JSON string literal. -/
def jsonQuote (s : String) : String :=
  String.singleton quoteChar ++ String.join (s.toList.map jsonEscapeChar) ++
    String.singleton quoteChar

mutual

/-- `json.dumps(v, indent=2)` at the given current indentation. -/
def json_dumps_at (ind : Nat) : JValue → String
  | .jnull => "null"
  | .jbool b => if b then "true" else "false"
  | .jnum n => toString n
  | .jstr s => jsonQuote s
  | .jarr [] => "[]"
  | .jarr (x :: xs) =>
    "[\n" ++ json_dumps_items (ind + 2) (x :: xs) ++ "\n" ++ spacesStr ind ++ "]"
  | .jobj [] => String.singleton lbraceChar ++ String.singleton rbraceChar
  | .jobj (m :: ms) =>
    String.singleton lbraceChar ++ "\n" ++ json_dumps_members (ind + 2) (m :: ms) ++ "\n" ++
      spacesStr ind ++ String.singleton rbraceChar

/-- Indented, comma-separated array items. -/
def json_dumps_items (ind : Nat) : List JValue → String
  | [] => ""
  | [x] => spacesStr ind ++ json_dumps_at ind x
  | x :: y :: ys => spacesStr ind ++ json_dumps_at ind x ++ ",\n" ++ json_dumps_items ind (y :: ys)

/-- Indented, comma-separated object members. -/
def json_dumps_members (ind : Nat) : List (String × JValue) → String
  | [] => ""
  | [m] => spacesStr ind ++ jsonQuote m.1 ++ ": " ++ json_dumps_at ind m.2
  | m :: y :: ys =>
    spacesStr ind ++ jsonQuote m.1 ++ ": " ++ json_dumps_at ind m.2 ++ ",\n" ++
      json_dumps_members ind (y :: ys)

end

/-- `json.dumps(v, indent=2)`. -/
def json_dumps (v : JValue) : String := json_dumps_at 0 v

/-- One evidence record as `_retrieve_evidence` stores it:
`{"content": mem.get("memory", "N/A"), "metadata": metadata}`. -/
structure Mem where
  content : Value
  metadata : Value
deriving Repr

/-- `d.get(k, default)` over JSON objects. -/
def dgetJ (fields : List (String × JValue)) (k : String) (default : JValue) : JValue :=
  match fields.find? (fun p => p.1 == k) with
  | some p => p.2
  | none => default

/-- Python `"version" in plan_content`: key membership for objects, element
equality for arrays, substring for strings, `TypeError` otherwise. -/
def jContainsVersion : JValue → Except PyErr Bool
  | .jobj fields => .ok (fields.any (fun p => p.1 == "version"))
  | .jarr xs => .ok (xs.any (fun x => match x with | .jstr s => s == "version" | _ => false))
  | .jstr s => .ok (strContains s "version")
  | _ => .error .typeError

/-- Numeric view of a JSON value for comparisons (`True` counts as 1). -/
def jnumVal : JValue → Option Int
  | .jnum n => some n
  | .jbool b => some (if b then 1 else 0)
  | _ => none

/-- Python `a < b` on JSON values: numbers and booleans compare numerically,
strings lexicographically; any other mixture raises `TypeError`.  (Python
additionally orders lists and floats, which nothing in this code base can
produce as a `version`.) -/
def pyLtJ (a b : JValue) : Except PyErr Bool :=
  match jnumVal a, jnumVal b with
  | some x, some y => .ok (decide (x < y))
  | _, _ =>
    match a, b with
    | .jstr x, .jstr y => .ok (decide (x < y))
    | _, _ => .error .typeError

/-- The filtered list comprehension of `_generate_llm_report` (lines
770-777): decode each plan's content, keep the decoded payloads for which
`"version" in plan_content` is truthy; decode failures and membership
`TypeError`s hit the inner `except (json.JSONDecodeError, TypeError)` and are
skipped. -/
def versionedPlans : List Mem → List JValue
  | [] => []
  | p :: rest =>
    match json_loads p.content with
    | .error _ => versionedPlans rest
    | .ok j =>
      match jContainsVersion j with
      | .error _ => versionedPlans rest
      | .ok true => j :: versionedPlans rest
      | .ok false => versionedPlans rest

/-- The sort key `lambda p: p.get("version", 0)`; CPython evaluates all keys
before comparing, raising `AttributeError` on any kept payload that is not an
object. -/
def computeSortKeys : List JValue → Except PyErr (List (JValue × JValue))
  | [] => .ok []
  | p :: rest =>
    match p with
    | .jobj fields =>
      match computeSortKeys rest with
      | .ok r => .ok ((JValue.jobj fields, dgetJ fields "version" (.jnum 0)) :: r)
      | .error e => .error e
    | _ => .error .attributeError

/-- Stable descending insertion: the element is placed before the first entry
whose key is strictly smaller, so equal keys keep their original order and
the head of the result is the leftmost maximum — the element
`sorted(..., reverse=True)[0]` selects. -/
def insertPlanDesc (kv : JValue × JValue) :
    List (JValue × JValue) → Except PyErr (List (JValue × JValue))
  | [] => .ok [kv]
  | h :: t =>
    match pyLtJ h.2 kv.2 with
    | .error e => .error e
    | .ok true => .ok (kv :: h :: t)
    | .ok false =>
      match insertPlanDesc kv t with
      | .ok r => .ok (h :: r)
      | .error e => .error e

/-- `sorted(versioned_plans, key=..., reverse=True)` as a stable descending
sort; a comparison between incomparable keys raises `TypeError` exactly as
CPython's sort does. -/
def sortPlansDesc (l : List (JValue × JValue)) : Except PyErr (List (JValue × JValue)) :=
  l.foldlM (fun acc kv => insertPlanDesc kv acc) []

/-- The `final_plan_str` computation of `_generate_llm_report` (lines
767-785): sentinel when no decoded payload carries a version, the
`indent=2` dump of the maximum-version payload when sorting succeeds, and
the error sentinel when the outer `except Exception` catches a key or
comparison error. -/
def computeFinalPlanStr (plans : List Mem) : String :=
  if plans.isEmpty then "No final strategic plan was recorded in memory."
  else
    let vps := versionedPlans plans
    if vps.isEmpty then "No final strategic plan was recorded in memory."
    else
      match computeSortKeys vps with
      | .error _ => "Error parsing the final plan from memory."
      | .ok kvs =>
        match sortPlansDesc kvs with
        | .error _ => "Error parsing the final plan from memory."
        | .ok [] => "Error parsing the final plan from memory."
        | .ok (top :: _) => json_dumps top.1

/-- The evidence store's response to `memory_client.get_all(...)` (external
collaborator): absent client, raising client, or a raw output value. -/
inductive MemOutcome where
  | noClient
  | raises
  | output (v : Value)
deriving Repr

/-- The reasoning oracle's behaviour for a report-synthesis invocation:
absent (`agent` is `None`/not callable), raising, or returning text. -/
inductive OracleBehavior where
  | absent
  | raises
  | returns (text : String)
deriving Repr

/-- Externally observable side effects of report generation. -/
inductive Effect where
  | evidenceRetrieve
  | oracleInvoke (promptText : String)
  | mkdirEvidence (path : String)
  | fileWrite (path : String) (contents : String)
deriving Repr

/-- The categorisation loop of `_retrieve_evidence` (lines 722-738):
non-dictionary items are skipped, a non-dictionary `metadata` raises
`AttributeError` at `metadata.get("category")`, which the surrounding
`except Exception` turns into returning the evidence accumulated so far. -/
def categorizeMems : List Value → List Mem × List Mem
  | [] => ([], [])
  | v :: rest =>
    match v with
    | .vdict fields =>
      match dget fields "metadata" (.vdict []) with
      | .vdict mfs =>
        let category := dget mfs "category" .vnone
        let m : Mem := ⟨dget fields "memory" (.vstr "N/A"), .vdict mfs⟩
        let (f, p) := categorizeMems rest
        if isStrEq category "finding" then (m :: f, p)
        else if isStrEq category "plan" then (f, m :: p)
        else (f, p)
      | _ => ([], [])
    | _ => categorizeMems rest

/-- `ReasoningHandler._retrieve_evidence` (lines 697-748).  A raising client
and every non-list raw shape (including a `results` entry that is not a
list, whose iteration yields no dictionaries or raises into the catch-all)
produce empty evidence; the store read itself is the recorded effect. -/
def retrieve_evidence (mo : MemOutcome) : List Effect × List Mem × List Mem :=
  match mo with
  | .noClient => ([], [], [])
  | .raises => ([.evidenceRetrieve], [], [])
  | .output v =>
    let memory_list : List Value :=
      match v with
      | .vdict fields =>
        if fields.any (fun p => p.1 == "results") then
          match dget fields "results" .vnone with
          | .vlist xs => xs
          | _ => []
        else []
      | .vlist xs => xs
      | _ => []
    let (f, p) := categorizeMems memory_list
    ([.evidenceRetrieve], f, p)

/-- The prompt of `_generate_llm_report` (lines 790-814). -/
def buildReportPrompt (target objective findings_str final_plan_str : String) : String :=
  "\nAs an expert cybersecurity analyst, your task is to synthesize the provided operational data into a professional penetration testing report.\n\n**MISSION CONTEXT:**\n- **Target:** " ++ target ++ "\n- **Initial Objective:** " ++ objective ++
  "\n\n**SUMMARY OF CRITICAL FINDINGS:**\nThe following discoveries were made during the operation:\n" ++ findings_str ++
  "\n\n**FINAL STRATEGIC PLAN:**\nThe final version of the strategic plan that led to these findings was as follows. This reveals the agent\x27s thought process and attack path.\n```json\n" ++ final_plan_str ++
  "\n```\n\n**YOUR TASK:**\nBased on ALL the information above (the findings AND the final plan), write a comprehensive and professional penetration testing report. The report MUST be structured with the following sections:\n1.  **Executive Summary:** A high-level overview for management, summarizing the key risks and business impact.\n2.  **Attack Narrative:** Tell the story of the penetration test from start to finish. Describe the strategic decisions made (referencing the plan), the tools used, the discoveries at each step, and how one finding led to the next.\n3.  **Vulnerability Details:** For each critical finding, provide a detailed technical breakdown including the vulnerability type (e.g., LFI, RCE), location, and evidence.\n4.  **Impact and Risk Assessment:** Explain the potential business and technical impact if these vulnerabilities were exploited by a real attacker.\n5.  **Recommendations:** Provide clear, actionable steps for remediation, categorized into immediate, short-term, and long-term actions.\n"

/-- `ReasoningHandler._generate_llm_report` (lines 758-832): compute the
final-plan string and the enumerated findings, build the prompt and consult
the oracle.  The returned effect list records the oracle invocation (also
attempted when it raises); the `Except` mirrors the `ValueError` for a
missing agent and the re-raised oracle failure. -/
def generate_llm_report (oracle : OracleBehavior) (target objective : String)
    (findings plans : List Mem) : List Effect × Except PyErr String :=
  let final_plan_str := computeFinalPlanStr plans
  let findings_str := String.intercalate "\n"
    ((findings.enum).map (fun p => toString (p.1 + 1) ++ ". " ++ pyStr p.2.content))
  let report_prompt := buildReportPrompt target objective findings_str final_plan_str
  match oracle with
  | .absent => ([], .error .valueError)
  | .raises => ([.oracleInvoke report_prompt], .error .agentError)
  | .returns t => ([.oracleInvoke report_prompt], .ok t)

/-- `_generate_no_evidence_report` (lines 887-908). -/
def generate_no_evidence_report (st : HandlerState) (_target _objective : String)
    (plans : List Mem) : String :=
  let plan_summary :=
    if plans.isEmpty then "No strategic plan was recorded."
    else toString plans.length ++ " plan versions were created during the operation."
  "## Assessment Summary\n\nStatus: No evidence (findings) collected during assessment.\nOperation Details\nSteps completed: " ++ toString st.steps ++ "/" ++ toString st.max_steps ++
  "\nMemory operations: " ++ toString st.memory_operations ++
  "\nPlanning Activity: " ++ plan_summary ++
  "\nPossible Reasons\nThe target may not have been reachable or vulnerable.\nThe operation may have been interrupted before significant findings were made.\nReview the execution log for tool errors or other issues.\n"

/-- Python `str.title()`: the first character of every alphabetic run is
uppercased, the rest lowercased. -/
def pyTitle (s : String) : String :=
  String.mk
    ((s.toList.foldl
      (fun (acc : List Char × Bool) c =>
        if c.isAlpha then
          (acc.1 ++ [if acc.2 then c.toLower else c.toUpper], true)
        else (acc.1 ++ [c], false))
      ([], false)).1)

/-- Python dictionary keys must be hashable; lists and dictionaries are
not. -/
def hashableV : Value → Bool
  | .vlist _ => false
  | .vdict _ => false
  | _ => true

/-- `categories.setdefault(cat, []).append(content)` over an
insertion-ordered group list. -/
def addToGroups (gs : List (Value × List Value)) (cat : Value) (c : Value) :
    List (Value × List Value) :=
  match gs with
  | [] => [(cat, [c])]
  | (k, vs) :: rest =>
    if beqValue k cat then (k, vs ++ [c]) :: rest
    else (k, vs) :: addToGroups rest cat c

/-- The grouping loop of `_generate_fallback_report` (lines 917-919): a
non-dictionary `metadata` raises `AttributeError` at `.get`, an unhashable
category raises `TypeError` at `setdefault`. -/
def groupFindingsAux (gs : List (Value × List Value)) :
    List Mem → Except PyErr (List (Value × List Value))
  | [] => .ok gs
  | m :: rest =>
    match m.metadata with
    | .vdict mfs =>
      let cat := dget mfs "category" (.vstr "unknown")
      if hashableV cat then groupFindingsAux (addToGroups gs cat m.content) rest
      else .error .typeError
    | _ => .error .attributeError

/-- Group the findings of the fallback report by metadata category. -/
def groupFindings (evidence : List Mem) : Except PyErr (List (Value × List Value)) :=
  groupFindingsAux [] evidence

/-- One numbered preview line `"{i}. {item[:200]}{'...' if len(item) > 200
else ''}\n"`; slicing a non-string, non-list content raises `TypeError`. -/
def renderPreviewLine (i : Nat) (item : Value) : Except PyErr String :=
  match pySlicePrefix item 200 with
  | .error e => .error e
  | .ok sliced =>
    match pyLen item with
    | .error e => .error e
    | .ok n => .ok (toString i ++ ". " ++ pyStr sliced ++ (if n > 200 then "..." else "") ++ "\n")

/-- The numbered previews of one category group (`enumerate(items[:5], 1)`). -/
def renderPreviewLines (i : Nat) : List Value → Except PyErr String
  | [] => .ok ""
  | v :: rest =>
    match renderPreviewLine i v with
    | .error e => .error e
    | .ok line =>
      match renderPreviewLines (i + 1) rest with
      | .error e => .error e
      | .ok r => .ok (line ++ r)

/-- One `### {category.title()} Findings` section of the fallback report with
at most five previews and the `... and N more items` marker; a non-string
category raises `AttributeError` at `.title()`. -/
def renderGroupSection (cat : Value) (items : List Value) : Except PyErr String :=
  match cat with
  | .vstr s =>
    match renderPreviewLines 1 (items.take 5) with
    | .error e => .error e
    | .ok previews =>
      .ok ("\n### " ++ pyTitle s ++ " Findings\n" ++ previews ++
        (if items.length > 5 then
          "... and " ++ toString (items.length - 5) ++ " more items\n" else ""))
  | _ => .error .attributeError

/-- All category sections, in group insertion order. -/
def renderGroups : List (Value × List Value) → Except PyErr String
  | [] => .ok ""
  | (c, items) :: rest =>
    match renderGroupSection c items with
    | .error e => .error e
    | .ok s =>
      match renderGroups rest with
      | .error e => .error e
      | .ok r => .ok (s ++ r)

/-- The fixed tail of the fallback report, including the note that AI
analysis was unavailable. -/
def fallbackNoteTail : String :=
  "\n\n### Note\nThis is a fallback report generated when AI analysis was unavailable. \nReview the evidence items above for detailed findings.\n"

/-- `ReasoningHandler._generate_fallback_report` (lines 910-946). -/
def generate_fallback_report (st : HandlerState) (_target _objective : String)
    (evidence : List Mem) : Except PyErr String :=
  match groupFindings evidence with
  | .error e => .error e
  | .ok gs =>
    match renderGroups gs with
    | .error e => .error e
    | .ok evidence_summary =>
      .ok ("## Assessment Summary\n\n**Status:** Evidence collected but LLM report generation failed\n\n### Operation Details\n- Steps completed: " ++
        toString st.steps ++ "/" ++ toString st.max_steps ++
        "\n- Tools created: " ++ toString st.created_tools.length ++
        "\n- Evidence items: " ++ toString evidence.length ++
        "\n- Memory operations: " ++ toString st.memory_operations ++
        "\n\n### Evidence Collected\n" ++ evidence_summary ++ fallbackNoteTail)

/-- `_display_fallback_evidence` (lines 948-959): print-only, but
`item["metadata"].get(...)` raises on a non-dictionary metadata and the
200-character preview slice raises on non-sliceable content. -/
def display_fallback_evidence_items (st : HandlerState) (i : Nat) :
    List Mem → Except PyErr HandlerState
  | [] => .ok st
  | m :: rest =>
    match m.metadata with
    | .vdict mfs =>
      let category := dget mfs "category" (.vstr "unknown")
      match pySlicePrefix m.content 200 with
      | .error e => .error e
      | .ok sliced =>
        match pyLen m.content with
        | .error e => .error e
        | .ok _ =>
          let st := { st with rendered := st.rendered ++
            [RenderItem.toolDetail (toString i ++ ". [" ++ pyStr category ++ "] " ++ pyStr sliced)] }
          display_fallback_evidence_items st (i + 1) rest
    | _ => .error .attributeError

/-- Enumerated fallback-evidence display starting at 1. -/
def display_fallback_evidence (st : HandlerState) (evidence : List Mem) :
    Except PyErr HandlerState :=
  display_fallback_evidence_items st 1 evidence

/-- Calendar timestamp supplied by `datetime.now()` (external clock). -/
structure DT where
  year : Nat
  month : Nat
  day : Nat
  hour : Nat
  minute : Nat
  second : Nat
deriving Repr, DecidableEq

/-- The decimal digit character for `n % 10`. -/
def digitChar10 (n : Nat) : Char := Char.ofNat (48 + n % 10)

/-- Two-digit zero padding (`%m`, `%d`, `%H`, `%M`, `%S`); agrees with
`strftime` on all in-range field values. -/
def pad2 (n : Nat) : String := String.mk [digitChar10 (n / 10), digitChar10 n]

/-- Four-digit zero padding (`%Y`); agrees with `strftime` on all in-range
years. -/
def pad4 (n : Nat) : String :=
  String.mk [digitChar10 (n / 1000), digitChar10 (n / 100), digitChar10 (n / 10), digitChar10 n]

/-- `datetime.strftime("%Y%m%d_%H%M%S")`. -/
def strftimeCompact (t : DT) : String :=
  pad4 t.year ++ pad2 t.month ++ pad2 t.day ++ "_" ++ pad2 t.hour ++ pad2 t.minute ++ pad2 t.second

/-- `datetime.strftime("%Y-%m-%d %H:%M:%S")`. -/
def strftimeHuman (t : DT) : String :=
  pad4 t.year ++ "-" ++ pad2 t.month ++ "-" ++ pad2 t.day ++ " " ++
    pad2 t.hour ++ ":" ++ pad2 t.minute ++ ":" ++ pad2 t.second

/-- The file name `_save_report_to_file` chooses (line 867). -/
def reportFileName (now : DT) : String := "final_report_" ++ strftimeCompact now ++ ".md"

/-- The fixed file header written before the report body (lines 871-878). -/
def reportHeader (st : HandlerState) (target objective : String) (now : DT) : String :=
  "# Cybersecurity Assessment Report\n\n**Operation ID:** " ++ st.operation_id ++
  "\n**Target:** " ++ target ++ "\n**Objective:** " ++ objective ++
  "\n**Generated:** " ++ strftimeHuman now ++ "\n\n---\n\n"

/-- `ReasoningHandler._save_report_to_file` (lines 858-885): create
`outputDir/evidence`, write header plus body into
`final_report_<timestamp>.md`.  `fsOk = false` models a filesystem error:
the internal `except` swallows it, prints a warning, and nothing is
written. -/
def save_report_to_file (st : HandlerState) (report_content target objective : String)
    (session_output_dir : String) (now : DT) (fsOk : Bool) : List Effect :=
  if fsOk then
    let evidence_dir := session_output_dir ++ "/evidence"
    let report_path := evidence_dir ++ "/" ++ reportFileName now
    [.mkdirEvidence evidence_dir,
     .fileWrite report_path (reportHeader st target objective now ++ report_content)]
  else []

/-- `ReasoningHandler.generate_final_report` (lines 668-695): guarded by
`report_generated` (set before any work), evidence retrieval, the
no-evidence/llm/fallback selection, and persistence.  The third component is
the exception the call propagates, if any (the fallback display/report can
raise on malformed findings). -/
def generate_final_report (st : HandlerState) (oracle : OracleBehavior) (mo : MemOutcome)
    (target objective session_output_dir : String) (now : DT) (fsOk : Bool) :
    HandlerState × List Effect × Option PyErr :=
  if st.report_generated then (st, [], none)
  else
    let st := { st with report_generated := true }
    let (effR, findings, plans) := retrieve_evidence mo
    if findings.isEmpty then
      let report_content := generate_no_evidence_report st target objective plans
      (st, effR ++ save_report_to_file st report_content target objective session_output_dir now fsOk, none)
    else
      let (effO, res) := generate_llm_report oracle target objective findings plans
      match res with
      | .ok report_content =>
        (st, effR ++ effO ++ save_report_to_file st report_content target objective session_output_dir now fsOk, none)
      | .error _ =>
        match display_fallback_evidence st findings with
        | .error e => (st, effR ++ effO, some e)
        | .ok st2 =>
          match generate_fallback_report st2 target objective findings with
          | .error e => (st2, effR ++ effO, some e)
          | .ok report_content =>
            (st2, effR ++ effO ++ save_report_to_file st2 report_content target objective session_output_dir now fsOk, none)

/-- Invocation validity as claim C3 words it: arguments must be a non-empty
mapping; `shell` needs a non-empty command string or non-empty command list;
`mem0_memory` needs non-empty content for `store`, a non-empty query for
`retrieve`, nothing extra for `list`/`delete`/`get`/`history`; any other
tool name is valid with any non-empty mapping.  This definition follows the
claim's wording, for comparison against `is_valid_tool_use` from the
source. -/
def claimValidToolUse (tool_name : String) (tool_input : Value) : Bool :=
  match tool_input with
  | .vdict fields =>
    if fields.isEmpty then false
    else if tool_name == "shell" then
      match dget fields "command" (.vstr "") with
      | .vstr s => !s.isEmpty
      | .vlist xs => !xs.isEmpty
      | _ => false
    else if tool_name == "mem0_memory" then
      let action := dget fields "action" (.vstr "")
      if isStrEq action "store" then truthy (dget fields "content" (.vstr ""))
      else if isStrEq action "retrieve" then truthy (dget fields "query" (.vstr ""))
      else if isStrEq action "list" || isStrEq action "delete" ||
              isStrEq action "get" || isStrEq action "history" then true
      else false
    else true
  | _ => false

/-- Plan selection as claim C6 words it: JSON-decode each plan record's
content, keep only payloads that decode to an object with an integer
`version` field, and select the maximum version.  This definition follows
the claim's wording, for comparison against `computeFinalPlanStr` from the
source. -/
def specIntVersionOf (m : Mem) : Option Int :=
  match json_loads m.content with
  | .ok (.jobj fields) =>
    match dgetJ fields "version" .jnull with
    | .jnum n => some n
    | _ => none
  | _ => none

/-- The maximum integer version among the claim-valid plan payloads. -/
def specFinalPlanVersion (plans : List Mem) : Option Int :=
  (plans.filterMap specIntVersionOf).max?

/-- Render-log items that are neither a rendered tool invocation nor the
limit notice. -/
def neutralItem : RenderItem → Bool
  | .toolExecution _ _ _ => false
  | .limitNotice => false
  | _ => true

/-- Number of times the invocation with the given id has been rendered. -/
def countToolExec (id : String) (l : List RenderItem) : Nat :=
  l.countP (fun x => match x with | .toolExecution tid _ _ => tid == id | _ => false)

/-- Number of limit-reached notices in the render log. -/
def countLimitNotice (l : List RenderItem) : Nat :=
  l.countP (fun x => match x with | .limitNotice => true | _ => false)

/-- The reasoning-text renderers touch only the text buffer, the two
`last_was` flags, the header flag, and append neutral render items; every
statistic and the dedup structures are untouched. -/
def ReasoningOnly (st st' : HandlerState) : Prop :=
  st'.steps = st.steps ∧ st'.max_steps = st.max_steps ∧
  st'.memory_operations = st.memory_operations ∧
  st'.shown_tools = st.shown_tools ∧ st'.tool_use_map = st.tool_use_map ∧
  st'.tool_results = st.tool_results ∧
  st'.tool_effectiveness = st.tool_effectiveness ∧
  st'.tools_used = st.tools_used ∧ st'.created_tools = st.created_tools ∧
  st'.step_limit_reached = st.step_limit_reached ∧
  st'.stop_tool_used = st.stop_tool_used ∧
  st'.report_generated = st.report_generated ∧
  st'.suppress_parent_output = st.suppress_parent_output ∧
  st'.operation_id = st.operation_id ∧
  st'.env_disable_parallel = st.env_disable_parallel ∧
  (∀ id, countToolExec id st'.rendered = countToolExec id st.rendered) ∧
  countLimitNotice st'.rendered = countLimitNotice st.rendered

/-- The flag invariant: `step_limit_reached` is only ever set once the step
counter has reached the limit. -/
def InvB (st : HandlerState) : Prop :=
  st.step_limit_reached = true → st.max_steps ≤ st.steps

/-- Handler states reachable from construction by a sequence of events. -/
inductive Reachable : HandlerState → Prop
  | init (n : Nat) (op : String) : Reachable (initState n op)
  | step {st : HandlerState} (e : Event) : Reachable st → Reachable (handlerCall st e).1

/-- Whether an event carries a tool-use payload naming the designated
terminate tool. -/
def eventDeliversStop : Event → Prop
  | .currentToolUse tu => tu.name = "stop"
  | .message content => ∃ tu, Block.toolUseBlock tu ∈ content ∧ tu.name = "stop"
  | _ => False

/-- The `YYYYMMDD_HHMMSS` shape test: fifteen characters, an underscore at
index 8, decimal digits everywhere else. -/
def timestampShapeOk (s : String) : Bool :=
  s.toList.length == 15 &&
  s.toList.enum.all (fun p => if p.1 == 8 then p.2 == '_' else p.2.isDigit)

/-- Whether an effect is a file write. -/
def isFileWrite : Effect → Bool
  | .fileWrite _ _ => true
  | _ => false

/-- Number of file writes among the effects. -/
def countFileWrites (effs : List Effect) : Nat := (effs.filter isFileWrite).length

/-- The run statistics of claim C1 ("the shown-id set, the step counter, and
all other statistics"), together with the render log: everything the second
delivery of a duplicate id must leave unchanged. -/
def statsOf (st : HandlerState) :
    Nat × Nat × Nat × List String × List String × List (String × Nat × Nat) ×
      Bool × Bool × Bool × List String × List RenderItem :=
  (st.steps, st.max_steps, st.memory_operations, st.created_tools, st.tools_used,
   st.tool_effectiveness, st.step_limit_reached, st.stop_tool_used, st.report_generated,
   st.shown_tools, st.rendered)

/-- Well-formed finding for the fallback path: textual content and a mapping
as metadata whose category entry (when present) is textual — exactly what
the retrieval loop produces for real memory entries. -/
def wfFinding (m : Mem) : Prop :=
  (∃ s, m.content = Value.vstr s) ∧
  (∃ mfs, m.metadata = Value.vdict mfs ∧
    ∃ c, dget mfs "category" (.vstr "unknown") = Value.vstr c)

/-- A concrete valid shell invocation used by the scenario theorems. -/
def shellInvocation (id : String) : ToolUse :=
  ⟨id, "shell", .vdict [("command", .vstr "ls -la")]⟩

/-- Claim C3's counterexample invocation: a `shell` call whose command is the
integer 5 — not a string and not a list. -/
def c3Invocation : ToolUse := ⟨"tool_001", "shell", .vdict [("command", .vint 5)]⟩

/-- Claim C6's counterexample plans: version 1 and a decodable payload whose
version field is the string "2". -/
def c6MixedPlans : List Mem :=
  [⟨.vstr "\x7b\"version\": 1\x7d", .vdict []⟩,
   ⟨.vstr "\x7b\"version\": \"2\"\x7d", .vdict []⟩]

/-- Claim C6's scenario plans: versions 1, 3, 2 plus one malformed record. -/
def c6ScenarioPlans : List Mem :=
  [⟨.vstr "\x7b\"version\": 1, \"goal\": \"recon\"\x7d", .vdict []⟩,
   ⟨.vstr "\x7b\"version\": 3, \"goal\": \"exploit\"\x7d", .vdict []⟩,
   ⟨.vstr "\x7b\"version\": 2, \"goal\": \"scan\"\x7d", .vdict []⟩,
   ⟨.vstr "not json", .vdict []⟩]

/-- Claim C5's counterexample store output: one finding whose stored memory
content is the integer 7. -/
def c5BadMemOut : Value :=
  .vlist [.vdict [("metadata", .vdict [("category", .vstr "finding")]),
                  ("memory", .vint 7)]]

/-- The grouping/rendering invariant of the fallback path: string category
keys, string contents. -/
def GroupsWf (gs : List (Value × List Value)) : Prop :=
  ∀ g ∈ gs, (∃ c, g.1 = Value.vstr c) ∧ ∀ v ∈ g.2, ∃ s, v = Value.vstr s

/-- C9's counterexample state: a single valid invocation processed under
limit 1.  The step counter reaches the limit without the flag being set. -/
def c9State : HandlerState :=
  (handlerCall (initState 1 "OP") (.currentToolUse (shellInvocation "t1"))).1

/-- The state after three valid distinct invocations under limit 3. -/
def c2ThreeSteps : HandlerState :=
  (runEvents (initState 3 "OP")
    [.currentToolUse (shellInvocation "t1"),
     .currentToolUse (shellInvocation "t2"),
     .currentToolUse (shellInvocation "t3")]).1

theorem countToolExec_append (id : String) (l m : List RenderItem) :
    countToolExec id (l ++ m) = countToolExec id l + countToolExec id m := by
  simp [countToolExec, List.countP_append]

theorem countLimitNotice_append (l m : List RenderItem) :
    countLimitNotice (l ++ m) = countLimitNotice l + countLimitNotice m := by
  simp [countLimitNotice, List.countP_append]

theorem countToolExec_of_neutral (id : String) (l : List RenderItem)
    (h : l.all neutralItem = true) : countToolExec id l = 0 := by
  induction l with
  | nil => rfl
  | cons x xs ih =>
    rw [List.all_cons, Bool.and_eq_true] at h
    have hxs := ih h.2
    have hx := h.1
    unfold countToolExec at hxs ⊢
    rw [List.countP_cons]
    cases x <;> simp_all [neutralItem]

theorem countLimitNotice_of_neutral (l : List RenderItem)
    (h : l.all neutralItem = true) : countLimitNotice l = 0 := by
  induction l with
  | nil => rfl
  | cons x xs ih =>
    rw [List.all_cons, Bool.and_eq_true] at h
    have hxs := ih h.2
    have hx := h.1
    unfold countLimitNotice at hxs ⊢
    rw [List.countP_cons]
    cases x <;> simp_all [neutralItem]

theorem all_neutral_map_detail (l : List String) :
    (l.map (fun c => RenderItem.toolDetail c)).all neutralItem = true := by
  induction l with
  | nil => rfl
  | cons x xs ih => simp [neutralItem, ih]

theorem reasoningOnly_refl (st : HandlerState) : ReasoningOnly st st := by
  unfold ReasoningOnly; repeat' constructor <;> simp

theorem reasoningOnly_trans {a b c : HandlerState}
    (h1 : ReasoningOnly a b) (h2 : ReasoningOnly b c) : ReasoningOnly a c := by
  unfold ReasoningOnly at *
  obtain ⟨e1, e2, e3, e4, e5, e6, e7, e8, e9, e10, e11, e12, e13, e14, e15, e16, e17⟩ := h1
  obtain ⟨f1, f2, f3, f4, f5, f6, f7, f8, f9, f10, f11, f12, f13, f14, f15, f16, f17⟩ := h2
  exact ⟨f1.trans e1, f2.trans e2, f3.trans e3, f4.trans e4, f5.trans e5, f6.trans e6,
    f7.trans e7, f8.trans e8, f9.trans e9, f10.trans e10, f11.trans e11, f12.trans e12,
    f13.trans e13, f14.trans e14, f15.trans e15,
    fun id => (f16 id).trans (e16 id), f17.trans e17⟩

theorem reasoningOnly_emit (st : HandlerState) (line : String) :
    ReasoningOnly st (emitReasoningLine st line) := by
  unfold emitReasoningLine ReasoningOnly
  repeat' split
  all_goals
    simp [countToolExec_append, countLimitNotice_append, countToolExec, countLimitNotice,
      List.countP_cons]

theorem reasoningOnly_foldl_emit (lines : List String) (st : HandlerState) :
    ReasoningOnly st (lines.foldl emitReasoningLine st) := by
  induction lines generalizing st with
  | nil => exact reasoningOnly_refl st
  | cons x xs ih =>
    exact reasoningOnly_trans (reasoningOnly_emit st x) (ih (emitReasoningLine st x))

theorem reasoningOnly_text_block (st : HandlerState) (text : String) :
    ReasoningOnly st (handle_text_block st text) := by
  unfold handle_text_block
  have h := reasoningOnly_foldl_emit
    (splitLines (st.current_reasoning_buffer ++ removeCR text)).dropLast st
  unfold ReasoningOnly at h ⊢
  obtain ⟨e1, e2, e3, e4, e5, e6, e7, e8, e9, e10, e11, e12, e13, e14, e15, e16, e17⟩ := h
  exact ⟨e1, e2, e3, e4, e5, e6, e7, e8, e9, e10, e11, e12, e13, e14, e15, e16, e17⟩

theorem reasoningOnly_flush (st : HandlerState) :
    ReasoningOnly st (flushReasoningBuffer st) := by
  unfold flushReasoningBuffer ReasoningOnly
  repeat' split
  all_goals
    simp [countToolExec_append, countLimitNotice_append, countToolExec, countLimitNotice,
      List.countP_cons]
  all_goals repeat' split
  all_goals
    simp [countToolExec_append, countLimitNotice_append, countToolExec, countLimitNotice,
      List.countP_cons]

theorem reasoningOnly_close (st : HandlerState) :
    ReasoningOnly st (closeReasoningHeader st) := by
  unfold closeReasoningHeader ReasoningOnly
  repeat' split
  all_goals
    simp [countToolExec_append, countLimitNotice_append, countToolExec, countLimitNotice,
      List.countP_cons]

theorem shell_details_neutral (env : Bool) (fields : List (String × Value)) :
    ((display_shell_tool env fields).details).all neutralItem = true := by
  simp only [display_shell_tool]
  split
  all_goals split
  all_goals simp [neutralItem, List.all_append, all_neutral_map_detail]

theorem file_write_details_neutral (fields : List (String × Value)) :
    ((display_file_write_tool fields).details).all neutralItem = true := by
  simp only [display_file_write_tool]
  repeat' split
  all_goals simp [neutralItem, List.all_append]

theorem editor_details_neutral (fields : List (String × Value)) :
    ((display_editor_tool fields).details).all neutralItem = true := by
  simp only [display_editor_tool]
  repeat' split
  all_goals simp [neutralItem, List.all_append]

theorem load_details_neutral (fields : List (String × Value)) :
    ((display_load_tool fields).details).all neutralItem = true := by
  simp [display_load_tool, neutralItem]

theorem stop_details_neutral (fields : List (String × Value)) :
    ((display_stop_tool fields).details).all neutralItem = true := by
  simp [display_stop_tool, neutralItem]

theorem mem0_details_neutral (fields : List (String × Value)) :
    ((display_mem0_memory_tool fields).details).all neutralItem = true := by
  simp [display_mem0_memory_tool, neutralItem]

theorem swarm_details_neutral (fields : List (String × Value)) :
    ((display_swarm_tool fields).details).all neutralItem = true := by
  simp only [display_swarm_tool]
  repeat' split
  all_goals simp [neutralItem, List.all_append]

theorem http_details_neutral (fields : List (String × Value)) :
    ((display_http_request_tool fields).details).all neutralItem = true := by
  simp [display_http_request_tool, neutralItem]

theorem think_details_neutral (fields : List (String × Value)) :
    ((display_think_tool fields).details).all neutralItem = true := by
  simp only [display_think_tool]
  repeat' split
  all_goals simp [neutralItem, List.all_append]

theorem generic_details_neutral (name : String) (fields : List (String × Value)) :
    ((display_generic_tool name fields).details).all neutralItem = true := by
  simp only [display_generic_tool]
  repeat' split
  all_goals simp [neutralItem, List.all_append]

theorem displayDetails_neutral (env : Bool) (name : String) (fields : List (String × Value)) :
    ((displayToolOutcome env name fields).details).all neutralItem = true := by
  unfold displayToolOutcome
  repeat' split
  all_goals
    first
    | exact shell_details_neutral env fields
    | exact file_write_details_neutral fields
    | exact editor_details_neutral fields
    | exact load_details_neutral fields
    | exact stop_details_neutral fields
    | exact mem0_details_neutral fields
    | exact swarm_details_neutral fields
    | exact http_details_neutral fields
    | exact think_details_neutral fields
    | exact generic_details_neutral name fields

theorem shell_stopSet (env : Bool) (fields : List (String × Value)) :
    (display_shell_tool env fields).stopSet = false := by
  simp only [display_shell_tool]
  split
  all_goals split
  all_goals simp

theorem file_write_stopSet (fields : List (String × Value)) :
    (display_file_write_tool fields).stopSet = false := by
  simp only [display_file_write_tool]
  repeat' split
  all_goals simp

theorem editor_stopSet (fields : List (String × Value)) :
    (display_editor_tool fields).stopSet = false := by
  simp only [display_editor_tool]
  repeat' split
  all_goals simp

theorem swarm_stopSet (fields : List (String × Value)) :
    (display_swarm_tool fields).stopSet = false := by
  simp only [display_swarm_tool]
  repeat' split
  all_goals simp

theorem think_stopSet (fields : List (String × Value)) :
    (display_think_tool fields).stopSet = false := by
  simp only [display_think_tool]
  repeat' split
  all_goals simp

theorem generic_stopSet (name : String) (fields : List (String × Value)) :
    (display_generic_tool name fields).stopSet = false := by
  simp only [display_generic_tool]
  repeat' split
  all_goals simp

theorem displayStopSet_eq (env : Bool) (name : String) (fields : List (String × Value)) :
    (displayToolOutcome env name fields).stopSet = (name == "stop") := by
  unfold displayToolOutcome
  repeat' split
  all_goals
    first
    | (rw [shell_stopSet env fields]; simp_all)
    | (rw [file_write_stopSet fields]; simp_all)
    | (rw [editor_stopSet fields]; simp_all)
    | (rw [swarm_stopSet fields]; simp_all)
    | (rw [think_stopSet fields]; simp_all)
    | (rw [generic_stopSet name fields]; simp_all)
    | simp_all [display_load_tool, display_stop_tool, display_mem0_memory_tool,
        display_http_request_tool]

/-- Rendering a new invocation when the budget is exhausted: the limit flag
is set, the notice is rendered, `StopIteration` propagates, and the step
counter, dedup set and id map are untouched. -/
theorem show_tool_execution_limit (st : HandlerState) (tu : ToolUse)
    (hflag : st.step_limit_reached = false) (hmax : st.max_steps ≤ st.steps) :
    (show_tool_execution st tu).2 = some PyErr.stopIteration ∧
    (show_tool_execution st tu).1.steps = st.steps ∧
    (show_tool_execution st tu).1.max_steps = st.max_steps ∧
    (show_tool_execution st tu).1.shown_tools = st.shown_tools ∧
    (show_tool_execution st tu).1.tool_use_map = st.tool_use_map ∧
    (show_tool_execution st tu).1.step_limit_reached = true ∧
    (show_tool_execution st tu).1.stop_tool_used = st.stop_tool_used ∧
    countLimitNotice (show_tool_execution st tu).1.rendered = countLimitNotice st.rendered + 1 ∧
    (∀ id, countToolExec id (show_tool_execution st tu).1.rendered = countToolExec id st.rendered) := by
  have hro := reasoningOnly_trans (reasoningOnly_flush st)
    (reasoningOnly_close (flushReasoningBuffer st))
  obtain ⟨e1, e2, e3, e4, e5, e6, e7, e8, e9, e10, e11, e12, e13, e14, e15, e16, e17⟩ := hro
  simp only [show_tool_execution]
  split
  case isTrue h =>
    refine ⟨rfl, e1, e2, e4, e5, rfl, e11, ?_, ?_⟩
    · rw [countLimitNotice_append, e17]; rfl
    · intro id
      rw [countToolExec_append, e16 id]; rfl
  case isFalse h =>
    exfalso
    apply h
    rw [e1, e2, e10, hflag]
    simp [hmax]

/-- Rendering a new invocation within budget: the step counter increments by
one, the step line for this invocation is rendered exactly once, and the
dedup structures, flags and statistics are otherwise untouched (the stop
flag is set exactly for the designated `stop` tool). -/
theorem show_tool_execution_step (st : HandlerState) (tu : ToolUse)
    (hlt : st.steps < st.max_steps) :
    (show_tool_execution st tu).1.steps = st.steps + 1 ∧
    (show_tool_execution st tu).1.max_steps = st.max_steps ∧
    (show_tool_execution st tu).1.shown_tools = st.shown_tools ∧
    (show_tool_execution st tu).1.tool_use_map = st.tool_use_map ∧
    (show_tool_execution st tu).1.step_limit_reached = st.step_limit_reached ∧
    (show_tool_execution st tu).1.memory_operations = st.memory_operations ∧
    (show_tool_execution st tu).1.tool_effectiveness = st.tool_effectiveness ∧
    (show_tool_execution st tu).1.tool_results = st.tool_results ∧
    (show_tool_execution st tu).1.report_generated = st.report_generated ∧
    (show_tool_execution st tu).1.stop_tool_used = (st.stop_tool_used || (tu.name == "stop")) ∧
    countToolExec tu.toolUseId (show_tool_execution st tu).1.rendered
      = countToolExec tu.toolUseId st.rendered + 1 ∧
    countLimitNotice (show_tool_execution st tu).1.rendered = countLimitNotice st.rendered := by
  have hro := reasoningOnly_trans (reasoningOnly_flush st)
    (reasoningOnly_close (flushReasoningBuffer st))
  obtain ⟨e1, e2, e3, e4, e5, e6, e7, e8, e9, e10, e11, e12, e13, e14, e15, e16, e17⟩ := hro
  simp only [show_tool_execution]
  split
  case isTrue h =>
    exfalso
    rw [Bool.and_eq_true] at h
    have hle := of_decide_eq_true h.1
    rw [e1, e2] at hle
    omega
  case isFalse h =>
    simp only [applyDisplay]
    split
    all_goals
      refine ⟨by simp [e1], by simp [e2], by simp [e4], by simp [e5], by simp [e10],
        by simp [e3], by simp [e7], by simp [e6], by simp [e12],
        by simp [e11, displayStopSet_eq], ?_, ?_⟩
    all_goals
      first
      | (rw [countToolExec_append, countToolExec_append, e16,
           countToolExec_of_neutral _ _ (displayDetails_neutral _ _ _)]
         simp [countToolExec, List.countP_cons])
      | (rw [countLimitNotice_append, countLimitNotice_append, e17,
           countLimitNotice_of_neutral _ (displayDetails_neutral _ _ _)]
         rfl)

theorem find?_append_keyed {α : Type} (l : List (String × α)) (k : String) (v : α)
    (hall : ∀ p ∈ l, (p.1 == k) = false) :
    (l ++ [(k, v)]).find? (fun p => p.1 == k) = some (k, v) := by
  induction l with
  | nil => simp [List.find?]
  | cons p rest ih =>
    have hp := hall p (List.mem_cons_self p rest)
    simp only [List.cons_append, List.find?, hp]
    exact ih (fun q hq => hall q (List.mem_cons_of_mem p hq))

theorem find?_updAssoc_self {α : Type} (l : List (String × α)) (k : String) (v : α) :
    (updAssoc l k v).find? (fun p => p.1 == k) = some (k, v) := by
  unfold updAssoc
  by_cases h : l.any (fun p => p.1 == k) = true
  · rw [if_pos h]
    induction l with
    | nil => simp at h
    | cons p rest ih =>
      by_cases hp : (p.1 == k) = true
      · simp [List.find?, hp]
      · have hp2 : (p.1 == k) = false := by
          cases hpk : p.1 == k
          · rfl
          · exact absurd hpk hp
        have h2 : rest.any (fun p => p.1 == k) = true := by
          simp only [List.any_cons, Bool.or_eq_true] at h
          rcases h with h | h
          · exact absurd h hp
          · exact h
        simpa [List.find?, hp2] using ih h2
  · rw [if_neg h]
    exact find?_append_keyed l k v (fun p hmem => by
      cases hpk : p.1 == k
      · rfl
      · exact absurd (List.any_eq_true.mpr ⟨p, hmem, hpk⟩) h)

theorem lookupAssoc_updAssoc_self {α : Type} (l : List (String × α)) (k : String) (v : α) :
    lookupAssoc (updAssoc l k v) k = some v := by
  unfold lookupAssoc
  rw [find?_updAssoc_self]

/-- Once the limit flag is set, `handle` is a no-op for every event kind. -/
theorem handlerCall_noop_of_limit (st : HandlerState) (e : Event)
    (h : st.step_limit_reached = true) : handlerCall st e = (st, none) := by
  simp [handlerCall, h]

theorem runEvents_noop_of_limit (st : HandlerState) (es : List Event)
    (h : st.step_limit_reached = true) : (runEvents st es).1 = st := by
  induction es with
  | nil => rfl
  | cons e rest ih => simp [runEvents, handlerCall_noop_of_limit st e h, ih]

/-- A valid, new invocation delivered through the streaming announcement:
it is recorded (dedup set and id map), rendered once, counted once. -/
theorem handlerCall_stream_new (st : HandlerState) (tu : ToolUse)
    (hflag : st.step_limit_reached = false) (hlt : st.steps < st.max_steps)
    (hvalid : is_valid_tool_use tu.name tu.input = .ok true)
    (hnew : st.shown_tools.contains tu.toolUseId = false) :
    (handlerCall st (.currentToolUse tu)).1.steps = st.steps + 1 ∧
    (handlerCall st (.currentToolUse tu)).1.max_steps = st.max_steps ∧
    (handlerCall st (.currentToolUse tu)).1.shown_tools = st.shown_tools ++ [tu.toolUseId] ∧
    lookupAssoc (handlerCall st (.currentToolUse tu)).1.tool_use_map tu.toolUseId = some tu ∧
    (handlerCall st (.currentToolUse tu)).1.step_limit_reached = false ∧
    (handlerCall st (.currentToolUse tu)).1.memory_operations = st.memory_operations ∧
    (handlerCall st (.currentToolUse tu)).1.tool_effectiveness = st.tool_effectiveness ∧
    (handlerCall st (.currentToolUse tu)).1.report_generated = st.report_generated ∧
    (handlerCall st (.currentToolUse tu)).1.stop_tool_used
      = (st.stop_tool_used || (tu.name == "stop")) ∧
    countToolExec tu.toolUseId (handlerCall st (.currentToolUse tu)).1.rendered
      = countToolExec tu.toolUseId st.rendered + 1 ∧
    countLimitNotice (handlerCall st (.currentToolUse tu)).1.rendered
      = countLimitNotice st.rendered := by
  have hstep := show_tool_execution_step
    { st with shown_tools := st.shown_tools ++ [tu.toolUseId]
              tool_use_map := updAssoc st.tool_use_map tu.toolUseId tu
              step_limit_reached := false } tu
    (by simpa using hlt)
  obtain ⟨s1, s2, s3, s4, s5, s6, s7, s8, s9, s10, s11, s12⟩ := hstep
  simp only at s1 s2 s3 s4 s5 s6 s7 s8 s9 s10 s11 s12
  simp only [handlerCall, hflag, Bool.false_eq_true, if_false, hvalid, hnew,
    Bool.not_false, Bool.and_true, if_true]
  split
  case h_1 stx e heq =>
    rw [heq] at s1 s2 s3 s4 s5 s6 s7 s9 s10 s11 s12
    simp only at s1 s2 s3 s4 s5 s6 s7 s9 s10 s11 s12
    exact ⟨s1, s2, s3, by rw [s4]; exact lookupAssoc_updAssoc_self _ _ _,
      s5, s6, s7, s9, s10, s11, s12⟩
  case h_2 stx heq =>
    rw [heq] at s1 s2 s3 s4 s5 s6 s7 s9 s10 s11 s12
    simp only at s1 s2 s3 s4 s5 s6 s7 s9 s10 s11 s12
    exact ⟨s1, s2, s3, by rw [s4]; exact lookupAssoc_updAssoc_self _ _ _,
      s5, s6, s7, s9, s10, s11, s12⟩

/-- An already-shown id delivered through the streaming announcement is
skipped entirely: the state is returned unchanged. -/
theorem handlerCall_stream_dup (st : HandlerState) (tu : ToolUse) (b : Bool)
    (hflag : st.step_limit_reached = false)
    (hvalid : is_valid_tool_use tu.name tu.input = .ok b)
    (hdup : st.shown_tools.contains tu.toolUseId = true) :
    handlerCall st (.currentToolUse tu) = (st, none) := by
  have hdup2 : tu.toolUseId ∈ st.shown_tools := by simpa using hdup
  simp [handlerCall, hflag, hvalid, hdup2]

/-- An already-shown id inside a composite message event is skipped; the
only state change of the call is the parent-output suppression flag. -/
theorem handlerCall_message_dup (st : HandlerState) (tu : ToolUse)
    (hflag : st.step_limit_reached = false)
    (hdup : st.shown_tools.contains tu.toolUseId = true) :
    handlerCall st (.message [.toolUseBlock tu])
      = ({ st with suppress_parent_output := true }, none) := by
  have hdup2 : tu.toolUseId ∈ st.shown_tools := by simpa using hdup
  simp [handlerCall, hflag, processTextBlocks, processToolUseBlocks, hdup2,
    processToolResultBlocks]

/-- A valid, new invocation delivered through a composite message event:
same recording/rendering/counting as the streaming delivery. -/
theorem handlerCall_message_new (st : HandlerState) (tu : ToolUse)
    (hflag : st.step_limit_reached = false) (hlt : st.steps < st.max_steps)
    (hvalid : is_valid_tool_use tu.name tu.input = .ok true)
    (hnew : st.shown_tools.contains tu.toolUseId = false) :
    (handlerCall st (.message [.toolUseBlock tu])).1.steps = st.steps + 1 ∧
    (handlerCall st (.message [.toolUseBlock tu])).1.max_steps = st.max_steps ∧
    (handlerCall st (.message [.toolUseBlock tu])).1.shown_tools
      = st.shown_tools ++ [tu.toolUseId] ∧
    lookupAssoc (handlerCall st (.message [.toolUseBlock tu])).1.tool_use_map tu.toolUseId
      = some tu ∧
    (handlerCall st (.message [.toolUseBlock tu])).1.step_limit_reached = false ∧
    (handlerCall st (.message [.toolUseBlock tu])).1.memory_operations
      = st.memory_operations ∧
    (handlerCall st (.message [.toolUseBlock tu])).1.tool_effectiveness
      = st.tool_effectiveness ∧
    (handlerCall st (.message [.toolUseBlock tu])).1.report_generated
      = st.report_generated ∧
    (handlerCall st (.message [.toolUseBlock tu])).1.stop_tool_used
      = (st.stop_tool_used || (tu.name == "stop")) ∧
    countToolExec tu.toolUseId (handlerCall st (.message [.toolUseBlock tu])).1.rendered
      = countToolExec tu.toolUseId st.rendered + 1 ∧
    countLimitNotice (handlerCall st (.message [.toolUseBlock tu])).1.rendered
      = countLimitNotice st.rendered := by
  have hstep := show_tool_execution_step
    { st with shown_tools := st.shown_tools ++ [tu.toolUseId]
              tool_use_map := updAssoc st.tool_use_map tu.toolUseId tu
              step_limit_reached := false } tu
    (by simpa using hlt)
  obtain ⟨s1, s2, s3, s4, s5, s6, s7, s8, s9, s10, s11, s12⟩ := hstep
  rcases hshow : show_tool_execution
    { st with shown_tools := st.shown_tools ++ [tu.toolUseId]
              tool_use_map := updAssoc st.tool_use_map tu.toolUseId tu
              step_limit_reached := false } tu with ⟨stx, exn⟩
  rw [hshow] at s1 s2 s3 s4 s5 s6 s7 s9 s10 s11 s12
  simp only at s1 s2 s3 s4 s5 s6 s7 s9 s10 s11 s12
  simp only [handlerCall, hflag, Bool.false_eq_true, if_false, processTextBlocks,
    List.foldl_cons, List.foldl_nil, processToolUseBlocks, hnew, hvalid,
    Bool.not_false, Bool.and_true, if_true, hshow]
  cases exn with
  | some e =>
    exact ⟨s1, s2, s3, by rw [s4]; exact lookupAssoc_updAssoc_self _ _ _,
      s5, s6, s7, s9, s10, s11, s12⟩
  | none =>
    simp only [processToolUseBlocks, processToolResultBlocks]
    exact ⟨s1, s2, s3, by rw [s4]; exact lookupAssoc_updAssoc_self _ _ _,
      s5, s6, s7, s9, s10, s11, s12⟩

/-- A valid, new invocation arriving when the budget is already exhausted,
via the streaming announcement: the id is recorded into the dedup set and
the id map *before* `StopIteration` propagates, the limit flag is set, the
notice is rendered, and the step counter is unchanged. -/
theorem handlerCall_stream_limit (st : HandlerState) (tu : ToolUse)
    (hflag : st.step_limit_reached = false) (hmax : st.max_steps ≤ st.steps)
    (hvalid : is_valid_tool_use tu.name tu.input = .ok true)
    (hnew : st.shown_tools.contains tu.toolUseId = false) :
    (handlerCall st (.currentToolUse tu)).2 = some PyErr.stopIteration ∧
    (handlerCall st (.currentToolUse tu)).1.steps = st.steps ∧
    (handlerCall st (.currentToolUse tu)).1.shown_tools = st.shown_tools ++ [tu.toolUseId] ∧
    lookupAssoc (handlerCall st (.currentToolUse tu)).1.tool_use_map tu.toolUseId = some tu ∧
    (handlerCall st (.currentToolUse tu)).1.step_limit_reached = true ∧
    countLimitNotice (handlerCall st (.currentToolUse tu)).1.rendered
      = countLimitNotice st.rendered + 1 ∧
    (∀ id, countToolExec id (handlerCall st (.currentToolUse tu)).1.rendered
      = countToolExec id st.rendered) := by
  have hstep := show_tool_execution_limit
    { st with shown_tools := st.shown_tools ++ [tu.toolUseId]
              tool_use_map := updAssoc st.tool_use_map tu.toolUseId tu
              step_limit_reached := false } tu (by simp) (by simpa using hmax)
  obtain ⟨s1, s2, s3, s4, s5, s6, s7, s8, s9⟩ := hstep
  rcases hshow : show_tool_execution
    { st with shown_tools := st.shown_tools ++ [tu.toolUseId]
              tool_use_map := updAssoc st.tool_use_map tu.toolUseId tu
              step_limit_reached := false } tu with ⟨stx, exn⟩
  rw [hshow] at s1 s2 s3 s4 s5 s6 s7 s8 s9
  simp only at s1 s2 s3 s4 s5 s6 s7 s8 s9
  simp only [handlerCall, hflag, Bool.false_eq_true, if_false, hvalid, hnew,
    Bool.not_false, Bool.and_true, if_true, hshow]
  subst s1
  exact ⟨rfl, s2, s4, by rw [s5]; exact lookupAssoc_updAssoc_self _ _ _, s6, s8,
    fun id => s9 id⟩

/-- The same budget-exhausted delivery through a composite message event. -/
theorem handlerCall_message_limit (st : HandlerState) (tu : ToolUse)
    (hflag : st.step_limit_reached = false) (hmax : st.max_steps ≤ st.steps)
    (hvalid : is_valid_tool_use tu.name tu.input = .ok true)
    (hnew : st.shown_tools.contains tu.toolUseId = false) :
    (handlerCall st (.message [.toolUseBlock tu])).2 = some PyErr.stopIteration ∧
    (handlerCall st (.message [.toolUseBlock tu])).1.steps = st.steps ∧
    (handlerCall st (.message [.toolUseBlock tu])).1.shown_tools
      = st.shown_tools ++ [tu.toolUseId] ∧
    lookupAssoc (handlerCall st (.message [.toolUseBlock tu])).1.tool_use_map tu.toolUseId
      = some tu ∧
    (handlerCall st (.message [.toolUseBlock tu])).1.step_limit_reached = true ∧
    countLimitNotice (handlerCall st (.message [.toolUseBlock tu])).1.rendered
      = countLimitNotice st.rendered + 1 ∧
    (∀ id, countToolExec id (handlerCall st (.message [.toolUseBlock tu])).1.rendered
      = countToolExec id st.rendered) := by
  have hstep := show_tool_execution_limit
    { st with shown_tools := st.shown_tools ++ [tu.toolUseId]
              tool_use_map := updAssoc st.tool_use_map tu.toolUseId tu
              step_limit_reached := false } tu (by simp) (by simpa using hmax)
  obtain ⟨s1, s2, s3, s4, s5, s6, s7, s8, s9⟩ := hstep
  rcases hshow : show_tool_execution
    { st with shown_tools := st.shown_tools ++ [tu.toolUseId]
              tool_use_map := updAssoc st.tool_use_map tu.toolUseId tu
              step_limit_reached := false } tu with ⟨stx, exn⟩
  rw [hshow] at s1 s2 s3 s4 s5 s6 s7 s8 s9
  simp only at s1 s2 s3 s4 s5 s6 s7 s8 s9
  simp only [handlerCall, hflag, Bool.false_eq_true, if_false, processTextBlocks,
    List.foldl_cons, List.foldl_nil, processToolUseBlocks, hnew, hvalid,
    Bool.not_false, Bool.and_true, if_true, hshow]
  subst s1
  exact ⟨rfl, s2, s4, by rw [s5]; exact lookupAssoc_updAssoc_self _ _ _, s6, s8,
    fun id => s9 id⟩

theorem invB_show (st : HandlerState) (tu : ToolUse) (h : InvB st) :
    InvB (show_tool_execution st tu).1 := by
  have hro := reasoningOnly_trans (reasoningOnly_flush st)
    (reasoningOnly_close (flushReasoningBuffer st))
  obtain ⟨e1, e2, e3, e4, e5, e6, e7, e8, e9, e10, e11, e12, e13, e14, e15, e16, e17⟩ := hro
  simp only [show_tool_execution]
  split
  case isTrue hcond =>
    intro _
    rw [Bool.and_eq_true] at hcond
    have hle := of_decide_eq_true hcond.1
    simpa using hle
  case isFalse hcond =>
    simp only [applyDisplay]
    split
    all_goals
      intro hf
      simp only at hf ⊢
      rw [e10] at hf
      have hx := h hf
      rw [e1, e2]
      omega

theorem invB_processToolUses (bs : List Block) : ∀ st : HandlerState, InvB st →
    InvB (processToolUseBlocks st bs).1 := by
  induction bs with
  | nil => intro st h; simpa [processToolUseBlocks] using h
  | cons b rest ih =>
    intro st h
    cases b with
    | toolUseBlock tu =>
      simp only [processToolUseBlocks]
      split
      · exact ih st h
      · split
        · exact h
        · exact ih st h
        · have hU : InvB { st with
              shown_tools := st.shown_tools ++ [tu.toolUseId]
              tool_use_map := updAssoc st.tool_use_map tu.toolUseId tu } := by
            intro hf; exact h hf
          have hS := invB_show _ tu hU
          split
          case h_1 stx e heq => rw [heq] at hS; exact hS
          case h_2 stx heq =>
            rw [heq] at hS
            exact ih _ (fun hf => hS hf)
    | textBlock t => exact ih st h
    | toolResultBlock tr => exact ih st h
    | otherBlock => exact ih st h

theorem processResults_preserve (bs : List Block) : ∀ st : HandlerState,
    (processToolResultBlocks st bs).1.steps = st.steps ∧
    (processToolResultBlocks st bs).1.max_steps = st.max_steps ∧
    (processToolResultBlocks st bs).1.step_limit_reached = st.step_limit_reached ∧
    (processToolResultBlocks st bs).1.stop_tool_used = st.stop_tool_used := by
  induction bs with
  | nil => intro st; exact ⟨rfl, rfl, rfl, rfl⟩
  | cons b rest ih =>
    intro st
    cases b with
    | toolResultBlock tr =>
      simp only [processToolResultBlocks]
      split
      case h_1 heq => exact ih st
      case h_2 tu heq =>
        repeat' split
        all_goals
          first
          | exact ⟨rfl, rfl, rfl, rfl⟩
          | simpa [show_tool_result, track_tool_effectiveness] using ih _
    | textBlock t => exact ih st
    | toolUseBlock tu => exact ih st
    | otherBlock => exact ih st

theorem processText_preserve (content : List Block) : ∀ st : HandlerState,
    (processTextBlocks st content).steps = st.steps ∧
    (processTextBlocks st content).max_steps = st.max_steps ∧
    (processTextBlocks st content).step_limit_reached = st.step_limit_reached ∧
    (processTextBlocks st content).stop_tool_used = st.stop_tool_used := by
  induction content with
  | nil => intro st; exact ⟨rfl, rfl, rfl, rfl⟩
  | cons b rest ih =>
    intro st
    cases b with
    | textBlock t =>
      have hro := reasoningOnly_text_block st t
      obtain ⟨e1, e2, e3, e4, e5, e6, e7, e8, e9, e10, e11, e12, e13, e14, e15, e16, e17⟩ := hro
      have ih2 := ih (handle_text_block st t)
      simp only [processTextBlocks, List.foldl_cons] at ih2 ⊢
      exact ⟨ih2.1.trans e1, ih2.2.1.trans e2, ih2.2.2.1.trans e10, ih2.2.2.2.trans e11⟩
    | toolUseBlock tu => exact ih st
    | toolResultBlock tr => exact ih st
    | otherBlock => exact ih st

theorem invB_handlerCall (st : HandlerState) (e : Event) (h : InvB st) :
    InvB (handlerCall st e).1 := by
  by_cases hflag : st.step_limit_reached = true
  · rw [handlerCall_noop_of_limit st e hflag]; exact h
  · have hflag2 : st.step_limit_reached = false := by
      cases hb : st.step_limit_reached
      · rfl
      · exact absurd hb hflag
    cases e with
    | data text =>
      have hro := reasoningOnly_text_block st text
      obtain ⟨e1, e2, e3, e4, e5, e6, e7, e8, e9, e10, e11, e12, e13, e14, e15, e16, e17⟩ := hro
      simp only [handlerCall, hflag2, Bool.false_eq_true, if_false]
      intro hf
      rw [e10] at hf
      rw [e1, e2]
      exact h hf
    | message content =>
      simp only [handlerCall, hflag2, Bool.false_eq_true, if_false]
      have hT := processText_preserve content st
      have hU := invB_processToolUses content (processTextBlocks st content)
        (fun hf => by rw [hT.2.2.1] at hf; rw [hT.1, hT.2.1]; exact h hf)
      split
      next stx ex heq => rw [heq] at hU; exact hU
      next stx heq =>
        rw [heq] at hU
        have hR := processResults_preserve content stx
        split
        next sty ey heq2 =>
          rw [heq2] at hR
          intro hf
          rw [hR.2.2.1] at hf
          have hx := hU hf
          rw [hR.1, hR.2.1]
          exact hx
        next sty heq2 =>
          rw [heq2] at hR
          intro hf
          simp only at hf ⊢
          rw [hR.2.2.1] at hf
          have hx := hU hf
          rw [hR.1, hR.2.1]
          exact hx
    | currentToolUse tool =>
      simp only [handlerCall, hflag2, Bool.false_eq_true, if_false]
      split
      next ex heq => exact h
      next b heq =>
        split
        · have hU : InvB { st with
              shown_tools := st.shown_tools ++ [tool.toolUseId]
              tool_use_map := updAssoc st.tool_use_map tool.toolUseId tool
              step_limit_reached := false } := by
            intro hf; simp at hf
          have hS := invB_show _ tool hU
          split
          next stx e2 heq2 => rw [heq2] at hS; exact hS
          next stx heq2 => rw [heq2] at hS; exact fun hf => hS hf
        · exact h
    | toolResultEvent tr =>
      simp only [handlerCall, hflag2, Bool.false_eq_true, if_false]
      split
      next tu heq =>
        intro hf
        exact absurd hf (by simp [show_tool_result, track_tool_effectiveness, hflag2])
      next heq => exact h
    | lifecycle =>
      simp only [handlerCall, hflag2, Bool.false_eq_true, if_false]
      split
      · intro hf; simp at hf
      · exact h

theorem reachable_invB {st : HandlerState} (h : Reachable st) : InvB st := by
  induction h with
  | init n op => intro hf; simp [initState] at hf
  | step e _ ih => exact invB_handlerCall _ e ih

theorem show_stop_only (st : HandlerState) (tu : ToolUse)
    (h : (show_tool_execution st tu).1.stop_tool_used = true) :
    st.stop_tool_used = true ∨ tu.name = "stop" := by
  have hro := reasoningOnly_trans (reasoningOnly_flush st)
    (reasoningOnly_close (flushReasoningBuffer st))
  obtain ⟨e1, e2, e3, e4, e5, e6, e7, e8, e9, e10, e11, e12, e13, e14, e15, e16, e17⟩ := hro
  simp only [show_tool_execution] at h
  split at h
  · left
    rw [← e11]
    simpa using h
  · simp only [applyDisplay] at h
    split at h
    all_goals
      simp only at h
      rw [displayStopSet_eq] at h
      rw [Bool.or_eq_true] at h
      rcases h with h | h
      · left; rw [← e11]; exact h
      · right; exact eq_of_beq h

theorem processToolUses_stop_only (bs : List Block) : ∀ st : HandlerState,
    (processToolUseBlocks st bs).1.stop_tool_used = true →
    st.stop_tool_used = true ∨ ∃ tu, Block.toolUseBlock tu ∈ bs ∧ tu.name = "stop" := by
  induction bs with
  | nil => intro st h; exact Or.inl h
  | cons b rest ih =>
    intro st h
    have weaken : ∀ st2 : HandlerState,
        st2.stop_tool_used = true ∨ (∃ tu, Block.toolUseBlock tu ∈ rest ∧ tu.name = "stop") →
        st2.stop_tool_used = true ∨ ∃ tu, Block.toolUseBlock tu ∈ b :: rest ∧ tu.name = "stop" := by
      intro st2 hx
      rcases hx with hx | ⟨tu, hm, hn⟩
      · exact Or.inl hx
      · exact Or.inr ⟨tu, List.mem_cons_of_mem b hm, hn⟩
    cases b with
    | toolUseBlock tu =>
      simp only [processToolUseBlocks] at h
      split at h
      · exact weaken st (ih st h)
      · split at h
        · exact Or.inl h
        · exact weaken st (ih st h)
        · split at h
          next stx e2 heq2 =>
            have hstop := show_stop_only _ tu (by rw [heq2]; exact h)
            simp only at hstop
            rcases hstop with hx | hx
            · exact Or.inl hx
            · exact Or.inr ⟨tu, List.mem_cons_self (Block.toolUseBlock tu) rest, hx⟩
          next stx heq2 =>
            rcases ih _ h with hx | hx
            · simp only at hx
              have hstop := show_stop_only _ tu (by rw [heq2]; exact hx)
              simp only at hstop
              rcases hstop with hy | hy
              · exact Or.inl hy
              · exact Or.inr ⟨tu, List.mem_cons_self (Block.toolUseBlock tu) rest, hy⟩
            · rcases hx with ⟨tu2, hm, hn⟩
              exact Or.inr ⟨tu2, List.mem_cons_of_mem _ hm, hn⟩
    | textBlock t => exact weaken st (ih st h)
    | toolResultBlock tr => exact weaken st (ih st h)
    | otherBlock => exact weaken st (ih st h)

/-- `explicitStopRequested` (`stop_tool_used`) is set only by processing an
event that delivers an invocation of the designated `stop` tool. -/
theorem handlerCall_stop_only (st : HandlerState) (e : Event)
    (h : (handlerCall st e).1.stop_tool_used = true) :
    st.stop_tool_used = true ∨ eventDeliversStop e := by
  by_cases hflag : st.step_limit_reached = true
  · rw [handlerCall_noop_of_limit st e hflag] at h; exact Or.inl h
  · have hflag2 : st.step_limit_reached = false := by
      cases hb : st.step_limit_reached
      · rfl
      · exact absurd hb hflag
    cases e with
    | data text =>
      have hro := reasoningOnly_text_block st text
      simp only [handlerCall, hflag2, Bool.false_eq_true, if_false] at h
      exact Or.inl (by rw [← hro.2.2.2.2.2.2.2.2.2.2.1]; exact h)
    | message content =>
      simp only [handlerCall, hflag2, Bool.false_eq_true, if_false] at h
      have hT := processText_preserve content st
      split at h
      next stx ex heq =>
        have hx := processToolUses_stop_only content (processTextBlocks st content)
          (by rw [heq]; exact h)
        rcases hx with hx | ⟨tu, hm, hn⟩
        · exact Or.inl (by rw [← hT.2.2.2]; exact hx)
        · exact Or.inr ⟨tu, hm, hn⟩
      next stx heq =>
        have hR := processResults_preserve content stx
        split at h
        next sty ey heq2 =>
          rw [heq2] at hR
          rw [hR.2.2.2] at h
          have hx := processToolUses_stop_only content (processTextBlocks st content)
            (by rw [heq]; exact h)
          rcases hx with hx | ⟨tu, hm, hn⟩
          · exact Or.inl (by rw [← hT.2.2.2]; exact hx)
          · exact Or.inr ⟨tu, hm, hn⟩
        next sty heq2 =>
          rw [heq2] at hR
          simp only at h
          rw [hR.2.2.2] at h
          have hx := processToolUses_stop_only content (processTextBlocks st content)
            (by rw [heq]; exact h)
          rcases hx with hx | ⟨tu, hm, hn⟩
          · exact Or.inl (by rw [← hT.2.2.2]; exact hx)
          · exact Or.inr ⟨tu, hm, hn⟩
    | currentToolUse tool =>
      simp only [handlerCall, hflag2, Bool.false_eq_true, if_false] at h
      split at h
      next ex heq => exact Or.inl h
      next b heq =>
        split at h
        · split at h
          next stx e2 heq2 =>
            have hstop := show_stop_only _ tool (by rw [heq2]; exact h)
            simp only at hstop
            rcases hstop with hx | hx
            · exact Or.inl hx
            · exact Or.inr hx
          next stx heq2 =>
            simp only at h
            have hstop := show_stop_only _ tool (by rw [heq2]; exact h)
            simp only at hstop
            rcases hstop with hx | hx
            · exact Or.inl hx
            · exact Or.inr hx
        · exact Or.inl h
    | toolResultEvent tr =>
      simp only [handlerCall, hflag2, Bool.false_eq_true, if_false] at h
      split at h
      next tu heq =>
        simp only [show_tool_result, track_tool_effectiveness] at h
        exact Or.inl h
      next heq => exact Or.inl h
    | lifecycle =>
      simp only [handlerCall, hflag2, Bool.false_eq_true, if_false] at h
      split at h
      · exact Or.inl h
      · exact Or.inl h

/-- C8 counterexample: with limit 100 and step count 75 the urgency query
returns "ABUNDANT" (remaining 25 > 20), not the "CONSTRAINED" the claim
asserts, and with step count 85 it returns "CONSTRAINED", not "CRITICAL". -/
theorem c8_counterexample :
    get_budget_urgency_level { initState 100 "OP" with steps := 75 } = "ABUNDANT" ∧
    get_budget_urgency_level { initState 100 "OP" with steps := 75 } ≠ "CONSTRAINED" ∧
    get_budget_urgency_level { initState 100 "OP" with steps := 85 } = "CONSTRAINED" ∧
    get_budget_urgency_level { initState 100 "OP" with steps := 85 } ≠ "CRITICAL" :=
  ⟨rfl, by decide, rfl, by decide⟩

/-- C8 (amended): the urgency query is a pure function of remaining steps
with boundaries remaining > 20 ABUNDANT, > 10 CONSTRAINED, > 5 CRITICAL,
else EMERGENCY; with limit 100 the step counts 75, 85, 93 and 97 therefore
map to ABUNDANT, CONSTRAINED, CRITICAL and EMERGENCY respectively. -/
theorem c8_urgency_thresholds :
    (∀ st : HandlerState,
      (get_budget_urgency_level st = "ABUNDANT" ↔ 20 < get_remaining_steps st) ∧
      (get_budget_urgency_level st = "CONSTRAINED" ↔
        (10 < get_remaining_steps st ∧ get_remaining_steps st ≤ 20)) ∧
      (get_budget_urgency_level st = "CRITICAL" ↔
        (5 < get_remaining_steps st ∧ get_remaining_steps st ≤ 10)) ∧
      (get_budget_urgency_level st = "EMERGENCY" ↔ get_remaining_steps st ≤ 5)) ∧
    get_budget_urgency_level { initState 100 "OP" with steps := 75 } = "ABUNDANT" ∧
    get_budget_urgency_level { initState 100 "OP" with steps := 85 } = "CONSTRAINED" ∧
    get_budget_urgency_level { initState 100 "OP" with steps := 93 } = "CRITICAL" ∧
    get_budget_urgency_level { initState 100 "OP" with steps := 97 } = "EMERGENCY" := by
  refine ⟨fun st => ?_, rfl, rfl, rfl, rfl⟩
  simp only [get_budget_urgency_level]
  split_ifs with h1 h2 h3 <;>
    refine ⟨⟨fun hx => ?_, fun hx => ?_⟩, ⟨fun hx => ?_, fun hx => ?_⟩,
      ⟨fun hx => ?_, fun hx => ?_⟩, ⟨fun hx => ?_, fun hx => ?_⟩⟩ <;>
    first
    | rfl
    | omega
    | (exact absurd hx (by decide))

theorem digitChar10_isDigit (n : Nat) : (digitChar10 n).isDigit = true := by
  have h : n % 10 < 10 := Nat.mod_lt _ (by decide)
  interval_cases h2 : n % 10 <;> simp [digitChar10, h2, Char.isDigit]

theorem strftimeCompact_toList (now : DT) :
    (strftimeCompact now).toList =
      [digitChar10 (now.year / 1000), digitChar10 (now.year / 100),
       digitChar10 (now.year / 10), digitChar10 now.year,
       digitChar10 (now.month / 10), digitChar10 now.month,
       digitChar10 (now.day / 10), digitChar10 now.day, '_',
       digitChar10 (now.hour / 10), digitChar10 now.hour,
       digitChar10 (now.minute / 10), digitChar10 now.minute,
       digitChar10 (now.second / 10), digitChar10 now.second] := rfl

theorem timestampShape_strftimeCompact (now : DT) :
    timestampShapeOk (strftimeCompact now) = true := by
  unfold timestampShapeOk
  rw [strftimeCompact_toList]
  simp [List.enum, List.enumFrom, digitChar10_isDigit]

/-- C7 counterexample: on a run with operation id "OP_TEST_RUN" the persisted
report goes to `outputDir/evidence/final_report_<timestamp>.md` — neither the
file name nor the full path contains the run identifier, contrary to the
claim. -/
theorem c7_counterexample :
    (generate_final_report (initState 10 "OP_TEST_RUN") (.returns "body") .noClient
        "tgt" "obj" "/data/out" ⟨2026, 10, 12, 1, 2, 3⟩ true).2.1 =
      [Effect.mkdirEvidence "/data/out/evidence",
       Effect.fileWrite "/data/out/evidence/final_report_20261012_010203.md"
         (reportHeader (initState 10 "OP_TEST_RUN") "tgt" "obj" ⟨2026, 10, 12, 1, 2, 3⟩ ++
          generate_no_evidence_report
            { initState 10 "OP_TEST_RUN" with report_generated := true } "tgt" "obj" [])] ∧
    reportFileName ⟨2026, 10, 12, 1, 2, 3⟩ = "final_report_20261012_010203.md" ∧
    strContains "final_report_20261012_010203.md" "OP_TEST_RUN" = false ∧
    strContains "/data/out/evidence/final_report_20261012_010203.md" "OP_TEST_RUN" = false := by
  refine ⟨?_, rfl, by decide, by decide⟩
  rfl

/-- C7 (amended): the report is persisted under `outputDir/evidence` (the
directory-creation effect precedes the write), into a file named
`final_report_<timestamp>.md` whose timestamp has the YYYYMMDD_HHMMSS shape;
the operation id, target, objective and generation time appear in the fixed
header that precedes the report body — the run identifier is in the header,
not in the file name. -/
theorem c7_report_persistence (st : HandlerState)
    (content target objective outDir : String) (now : DT) :
    save_report_to_file st content target objective outDir now true =
      [Effect.mkdirEvidence (outDir ++ "/evidence"),
       Effect.fileWrite (outDir ++ "/evidence" ++ "/" ++ reportFileName now)
         (reportHeader st target objective now ++ content)] ∧
    reportFileName now = "final_report_" ++ strftimeCompact now ++ ".md" ∧
    timestampShapeOk (strftimeCompact now) = true ∧
    reportHeader st target objective now =
      "# Cybersecurity Assessment Report\n\n**Operation ID:** " ++ st.operation_id ++
      "\n**Target:** " ++ target ++ "\n**Objective:** " ++ objective ++
      "\n**Generated:** " ++ strftimeHuman now ++ "\n\n---\n\n" := by
  refine ⟨?_, rfl, timestampShape_strftimeCompact now, rfl⟩
  simp [save_report_to_file]

/-- C6 counterexample: with a version-1 plan plus a plan that decodes to an
object whose version is the string "2", the claim's rule selects the only
integer-versioned plan (version 1), but the code's `"version" in` keep-test
retains the string-versioned payload and the mixed-type sort key comparison
raises, so the code falls back to the error sentinel instead. -/
theorem c6_counterexample :
    specFinalPlanVersion c6MixedPlans = some 1 ∧
    computeFinalPlanStr c6MixedPlans = "Error parsing the final plan from memory." ∧
    computeFinalPlanStr c6MixedPlans ≠ json_dumps (.jobj [("version", .jnum 1)]) ∧
    computeFinalPlanStr c6MixedPlans ≠ "No final strategic plan was recorded in memory." := by
  refine ⟨rfl, rfl, by decide, by decide⟩

/-- C6 (amended): payloads that fail to JSON-decode are excluded from the
selection, so with plan versions 1, 3, 2 plus one undecodable record the
selected final plan is the version-3 payload; when no kept payload remains,
the "no plan recorded" sentinel is used.  (Decoded payloads are kept by a
`"version" in payload` test, not an integer-version check, and kept payloads
with non-integer or non-object version data make the whole selection fall
back to an error sentinel rather than being excluded.) -/
theorem c6_plan_selection :
    computeFinalPlanStr c6ScenarioPlans =
      json_dumps (.jobj [("version", .jnum 3), ("goal", .jstr "exploit")]) ∧
    (∀ plans : List Mem, versionedPlans plans = [] →
      computeFinalPlanStr plans = "No final strategic plan was recorded in memory.") := by
  constructor
  · rfl
  · intro plans h
    unfold computeFinalPlanStr
    split
    · rfl
    · rw [h]
      simp

/-- Witness for the C6 sentinel clause at a concrete undecodable plan list. -/
theorem c6_plan_selection_witness :
    computeFinalPlanStr [⟨.vstr "not json", .vdict []⟩]
      = "No final strategic plan was recorded in memory." :=
  c6_plan_selection.2 [⟨.vstr "not json", .vdict []⟩] rfl

/-- C3 counterexample: a `shell` invocation whose command is the integer 5
fails the claim's tool-specific requirement (it is neither a non-empty
command string nor a non-empty command list), yet the code's validity check
accepts it (`bool(command)` on a truthy non-string) and `handle` counts,
renders and records it. -/
theorem c3_counterexample :
    claimValidToolUse "shell" (.vdict [("command", .vint 5)]) = false ∧
    is_valid_tool_use "shell" (.vdict [("command", .vint 5)]) = .ok true ∧
    (handlerCall (initState 10 "OP") (.currentToolUse c3Invocation)).1.steps = 1 ∧
    (handlerCall (initState 10 "OP") (.currentToolUse c3Invocation)).1.shown_tools
      = ["tool_001"] ∧
    countToolExec "tool_001"
      (handlerCall (initState 10 "OP") (.currentToolUse c3Invocation)).1.rendered = 1 := by
  refine ⟨rfl, rfl, rfl, rfl, ?_⟩
  decide

/-- C3 (amended): an invocation the code's validity check rejects is neither
counted nor rendered nor marked shown — on the streaming channel the state
is returned untouched, on the composite channel only the parent-suppression
flag changes — and a later delivery of the same id that the code accepts is
still counted and recorded. -/
theorem c3_validity_gating (st : HandlerState) (tu : ToolUse)
    (hflag : st.step_limit_reached = false)
    (hinvalid : is_valid_tool_use tu.name tu.input = .ok false) :
    handlerCall st (.currentToolUse tu) = (st, none) ∧
    handlerCall st (.message [.toolUseBlock tu])
      = ({ st with suppress_parent_output := true }, none) ∧
    (∀ tu2 : ToolUse, tu2.toolUseId = tu.toolUseId →
      is_valid_tool_use tu2.name tu2.input = .ok true →
      st.shown_tools.contains tu.toolUseId = false →
      st.steps < st.max_steps →
      (handlerCall st (.currentToolUse tu2)).1.steps = st.steps + 1 ∧
      (handlerCall st (.currentToolUse tu2)).1.shown_tools
        = st.shown_tools ++ [tu2.toolUseId] ∧
      countToolExec tu2.toolUseId (handlerCall st (.currentToolUse tu2)).1.rendered
        = countToolExec tu2.toolUseId st.rendered + 1) := by
  refine ⟨?_, ?_, ?_⟩
  · simp [handlerCall, hflag, hinvalid]
  · by_cases hc : st.shown_tools.contains tu.toolUseId = true
    · have hc2 : tu.toolUseId ∈ st.shown_tools := by simpa using hc
      simp [handlerCall, hflag, processTextBlocks, processToolUseBlocks, hc2,
        processToolResultBlocks]
    · have hc2 : tu.toolUseId ∉ st.shown_tools := by
        intro hmem
        exact hc (by simpa using hmem)
      simp [handlerCall, hflag, processTextBlocks, processToolUseBlocks, hc2, hinvalid,
        processToolResultBlocks]
  · intro tu2 hid hv hnew hlt
    have hx := handlerCall_stream_new st tu2 hflag hlt hv (by rw [hid]; exact hnew)
    exact ⟨hx.1, hx.2.2.1, hx.2.2.2.2.2.2.2.2.2.1⟩

/-- Witness for C3's amended gating at a concrete invalid-then-valid pair:
an empty-command shell invocation is dropped, then a valid delivery of the
same id is counted. -/
theorem c3_validity_gating_witness :
    handlerCall (initState 10 "OP")
      (.currentToolUse ⟨"tool_001", "shell", .vdict [("command", .vstr " ")]⟩)
      = (initState 10 "OP", none) ∧
    (handlerCall (initState 10 "OP") (.currentToolUse (shellInvocation "tool_001"))).1.steps
      = 1 := by
  have hx := c3_validity_gating (initState 10 "OP")
    ⟨"tool_001", "shell", .vdict [("command", .vstr " ")]⟩ rfl (by rfl)
  exact ⟨hx.1, (hx.2.2 (shellInvocation "tool_001") rfl (by rfl) rfl (by decide)).1⟩

theorem display_fb_ok (l : List Mem) : ∀ (st : HandlerState) (i : Nat),
    (∀ m ∈ l, wfFinding m) →
    ∃ st2, display_fallback_evidence_items st i l = .ok st2 := by
  induction l with
  | nil => intro st i _; exact ⟨st, rfl⟩
  | cons m rest ih =>
    intro st i h
    obtain ⟨⟨s, hs⟩, ⟨mfs, hm, c, hc⟩⟩ := h m (List.mem_cons_self m rest)
    simp only [display_fallback_evidence_items, hm, hs, pySlicePrefix, pyLen]
    exact ih _ _ (fun m2 hm2 => h m2 (List.mem_cons_of_mem m hm2))

theorem addToGroups_wf (gs : List (Value × List Value)) (cat c : Value)
    (hcat : ∃ s, cat = Value.vstr s) (hc : ∃ s, c = Value.vstr s)
    (hgs : GroupsWf gs) : GroupsWf (addToGroups gs cat c) := by
  induction gs with
  | nil =>
    intro g hg
    simp only [addToGroups, List.mem_singleton] at hg
    subst hg
    refine ⟨hcat, ?_⟩
    intro v hv
    simp only [List.mem_singleton] at hv
    subst hv
    exact hc
  | cons p rest ih =>
    intro g hg
    simp only [addToGroups] at hg
    split at hg
    · rcases List.mem_cons.mp hg with hg | hg
      · subst hg
        obtain ⟨h1, h2⟩ := hgs p (List.mem_cons_self p rest)
        refine ⟨h1, ?_⟩
        intro v hv
        rcases List.mem_append.mp hv with hv | hv
        · exact h2 v hv
        · simp only [List.mem_singleton] at hv
          subst hv
          exact hc
      · exact hgs g (List.mem_cons_of_mem p hg)
    · rcases List.mem_cons.mp hg with hg | hg
      · subst hg
        exact hgs p (List.mem_cons_self p rest)
      · exact ih (fun q hq => hgs q (List.mem_cons_of_mem p hq)) g hg

theorem groupFindingsAux_ok (l : List Mem) : ∀ gs : List (Value × List Value),
    (∀ m ∈ l, wfFinding m) → GroupsWf gs →
    ∃ gs2, groupFindingsAux gs l = .ok gs2 ∧ GroupsWf gs2 := by
  induction l with
  | nil => intro gs _ hgs; exact ⟨gs, rfl, hgs⟩
  | cons m rest ih =>
    intro gs h hgs
    obtain ⟨⟨s, hs⟩, ⟨mfs, hm, c, hc⟩⟩ := h m (List.mem_cons_self m rest)
    simp only [groupFindingsAux, hm, hc, hashableV]
    exact ih _ (fun m2 hm2 => h m2 (List.mem_cons_of_mem m hm2))
      (addToGroups_wf gs _ _ ⟨c, rfl⟩ ⟨s, hs⟩ hgs)

theorem renderPreviewLines_ok (l : List Value) : ∀ i : Nat,
    (∀ v ∈ l, ∃ s, v = Value.vstr s) →
    ∃ txt, renderPreviewLines i l = .ok txt := by
  induction l with
  | nil => intro i _; exact ⟨"", rfl⟩
  | cons v rest ih =>
    intro i h
    obtain ⟨s, hs⟩ := h v (List.mem_cons_self v rest)
    obtain ⟨txt, htxt⟩ := ih (i + 1) (fun v2 hv2 => h v2 (List.mem_cons_of_mem v hv2))
    subst hs
    simp only [renderPreviewLines, renderPreviewLine, pySlicePrefix, pyLen, htxt]
    exact ⟨_, rfl⟩

theorem renderGroups_ok (gs : List (Value × List Value)) (h : GroupsWf gs) :
    ∃ txt, renderGroups gs = .ok txt := by
  induction gs with
  | nil => exact ⟨"", rfl⟩
  | cons g rest ih =>
    obtain ⟨⟨c, hc⟩, hitems⟩ := h g (List.mem_cons_self g rest)
    obtain ⟨t1, ht1⟩ := renderPreviewLines_ok (g.2.take 5) 1
      (fun v hv => hitems v (List.mem_of_mem_take hv))
    obtain ⟨t2, ht2⟩ := ih (fun q hq => h q (List.mem_cons_of_mem g hq))
    have : renderGroupSection g.1 g.2 = .ok
        ("\n### " ++ pyTitle c ++ " Findings\n" ++ t1 ++
          (if g.2.length > 5 then
            "... and " ++ toString (g.2.length - 5) ++ " more items\n" else "")) := by
      rw [show g.1 = Value.vstr c from hc]
      simp only [renderGroupSection, ht1]
    rcases g with ⟨gc, gitems⟩
    simp only [renderGroups] at ht2 ⊢
    simp only at this
    rw [this, ht2]
    exact ⟨_, rfl⟩

theorem generate_fallback_report_ok (st : HandlerState) (target objective : String)
    (findings : List Mem) (h : ∀ m ∈ findings, wfFinding m) :
    ∃ body, generate_fallback_report st target objective findings = .ok body ∧
      ∃ front, body = front ++ fallbackNoteTail := by
  obtain ⟨gs, hgs, hwf⟩ := groupFindingsAux_ok findings [] h (by intro g hg; cases hg)
  obtain ⟨txt, htxt⟩ := renderGroups_ok gs hwf
  simp only [generate_fallback_report, groupFindings, hgs, htxt]
  exact ⟨_, rfl, _, rfl⟩

theorem retrieve_no_writes (mo : MemOutcome) :
    countFileWrites (retrieve_evidence mo).1 = 0 := by
  cases mo <;> rfl

theorem countFileWrites_append (a b : List Effect) :
    countFileWrites (a ++ b) = countFileWrites a + countFileWrites b := by
  simp [countFileWrites, List.filter_append]

set_option maxRecDepth 100000 in
/-- C5 (amended, part theorem): with an always-raising oracle and non-empty,
well-formed findings (textual content, mapping metadata), the final report
call returns normally, writes exactly one file, and the written body ends
with the fixed note that AI analysis was unavailable. -/
theorem c5_fallback_totality (st : HandlerState) (mo : MemOutcome)
    (target objective outDir : String) (now : DT)
    (hgen : st.report_generated = false)
    (hne : (retrieve_evidence mo).2.1 ≠ [])
    (hwf : ∀ m ∈ (retrieve_evidence mo).2.1, wfFinding m) :
    ((generate_final_report st .raises mo target objective outDir now true).2.2 = none ∧
     countFileWrites
       (generate_final_report st .raises mo target objective outDir now true).2.1 = 1 ∧
     (∃ p c, Effect.fileWrite p c
        ∈ (generate_final_report st .raises mo target objective outDir now true).2.1 ∧
      ∃ front, c = front ++ fallbackNoteTail)) ∧
    renderGroupSection (.vstr "finding")
        [.vstr "a", .vstr "b", .vstr "c", .vstr "d", .vstr "e", .vstr "f", .vstr "g"]
      = .ok "\n### Finding Findings\n1. a\n2. b\n3. c\n4. d\n5. e\n... and 2 more items\n" ∧
    renderPreviewLine 1 (Value.vstr (String.mk (List.replicate 210 'a')))
      = .ok ("1. " ++ String.mk (List.replicate 200 'a') ++ "..." ++ "\n") := by
  refine ⟨?_, by rfl, by rfl⟩
  have hd := display_fb_ok (retrieve_evidence mo).2.1
    { st with report_generated := true } 1 hwf
  obtain ⟨st2, hd⟩ := hd
  obtain ⟨body, hb, front, hf⟩ := generate_fallback_report_ok st2 target objective
    (retrieve_evidence mo).2.1 hwf
  have hemp : (retrieve_evidence mo).2.1.isEmpty = false := by
    cases hl : (retrieve_evidence mo).2.1
    · exact absurd hl hne
    · rfl
  rcases hret : retrieve_evidence mo with ⟨effR, findings, plans⟩
  rw [hret] at hd hb hemp
  simp only at hd hb hemp
  simp only [generate_final_report, hgen, Bool.false_eq_true, if_false, hret, hemp,
    generate_llm_report, display_fallback_evidence, hd, hb, save_report_to_file]
  refine ⟨by simp, ?_, ?_⟩
  · rw [countFileWrites_append, countFileWrites_append]
    have h0 : countFileWrites effR = 0 := by
      have := retrieve_no_writes mo
      rw [hret] at this
      exact this
    rw [h0]
    rfl
  · refine ⟨outDir ++ "/evidence" ++ "/" ++ reportFileName now,
      reportHeader st2 target objective now ++ body, by simp,
      reportHeader st2 target objective now ++ front, ?_⟩
    rw [hf, String.append_assoc]

theorem display_fb_items_report (l : List Mem) : ∀ (st : HandlerState) (i : Nat)
    (st2 : HandlerState), display_fallback_evidence_items st i l = .ok st2 →
    st2.report_generated = st.report_generated := by
  induction l with
  | nil =>
    intro st i st2 h
    simp only [display_fallback_evidence_items] at h
    cases h
    rfl
  | cons m rest ih =>
    intro st i st2 h
    simp only [display_fallback_evidence_items] at h
    split at h
    · split at h
      · cases h
      · split at h
        · cases h
        · exact ih _ _ _ h ▸ rfl
    · cases h

/-- After any call, the report flag is set: idempotence is armed before any
work is attempted. -/
theorem generate_final_report_flag (st : HandlerState) (oracle : OracleBehavior)
    (mo : MemOutcome) (target objective outDir : String) (now : DT) (fsOk : Bool) :
    (generate_final_report st oracle mo target objective outDir now fsOk).1.report_generated
      = true := by
  unfold generate_final_report
  split
  next h => exact h
  next h =>
    rcases hret : retrieve_evidence mo with ⟨effR, findings, plans⟩
    simp only
    split
    · rfl
    · rcases hllm : generate_llm_report oracle target objective findings plans with ⟨effO, res⟩
      simp only
      split
      · rfl
      · split
        next e2 heq2 => rfl
        next st2 heq2 =>
          have hrep := display_fb_items_report findings _ 1 st2 heq2
          split
          · simpa using hrep
          · simpa using hrep

/-- A call on a state whose report flag is already set is a strict no-op. -/
theorem generate_final_report_noop (st : HandlerState) (oracle : OracleBehavior)
    (mo : MemOutcome) (target objective outDir : String) (now : DT) (fsOk : Bool)
    (h : st.report_generated = true) :
    generate_final_report st oracle mo target objective outDir now fsOk = (st, [], none) := by
  unfold generate_final_report
  rw [if_pos h]

/-- A first call that completes normally persists exactly one file. -/
theorem generate_final_report_one_write (st : HandlerState) (oracle : OracleBehavior)
    (mo : MemOutcome) (target objective outDir : String) (now : DT)
    (hgen : st.report_generated = false)
    (hexn : (generate_final_report st oracle mo target objective outDir now true).2.2 = none) :
    countFileWrites
      (generate_final_report st oracle mo target objective outDir now true).2.1 = 1 := by
  have h0 : countFileWrites (retrieve_evidence mo).1 = 0 := retrieve_no_writes mo
  unfold generate_final_report at hexn ⊢
  rw [if_neg (by rw [hgen]; exact Bool.false_ne_true)] at hexn ⊢
  simp only at hexn ⊢
  by_cases hempty : (retrieve_evidence mo).2.1.isEmpty = true
  · rw [if_pos hempty]
    rw [countFileWrites_append, h0]
    rfl
  · rw [if_neg hempty] at hexn ⊢
    cases oracle with
    | returns t =>
      simp only [generate_llm_report]
      rw [countFileWrites_append, countFileWrites_append, h0]
      rfl
    | absent =>
      simp only [generate_llm_report] at hexn ⊢
      split
      next e2 heq2 =>
        rw [heq2] at hexn
        exact absurd hexn (by simp)
      next st2 heq2 =>
        rw [heq2] at hexn
        simp only at hexn
        split
        next e3 heq3 =>
          rw [heq3] at hexn
          exact absurd hexn (by simp)
        next body heq3 =>
          rw [countFileWrites_append, countFileWrites_append, h0]
          rfl
    | raises =>
      simp only [generate_llm_report] at hexn ⊢
      split
      next e2 heq2 =>
        rw [heq2] at hexn
        exact absurd hexn (by simp)
      next st2 heq2 =>
        rw [heq2] at hexn
        simp only at hexn
        split
        next e3 heq3 =>
          rw [heq3] at hexn
          exact absurd hexn (by simp)
        next body heq3 =>
          rw [countFileWrites_append, countFileWrites_append, h0]
          rfl

/-- C5 counterexample: with an always-raising oracle and one finding whose
stored content is the integer 7 (reachable through the evidence store), the
final-report call propagates a `TypeError` instead of returning normally,
and writes nothing; and the fallback generator itself raises
`AttributeError` on a finding whose metadata is not a mapping. -/
theorem c5_counterexample :
    (generate_final_report (initState 10 "OP") .raises (.output c5BadMemOut)
        "tgt" "obj" "/data/out" ⟨2026, 10, 12, 1, 2, 3⟩ true).2.2
      = some PyErr.typeError ∧
    countFileWrites (generate_final_report (initState 10 "OP") .raises (.output c5BadMemOut)
        "tgt" "obj" "/data/out" ⟨2026, 10, 12, 1, 2, 3⟩ true).2.1 = 0 ∧
    generate_fallback_report (initState 10 "OP") "tgt" "obj"
        [⟨.vstr "x", .vint 5⟩] = .error PyErr.attributeError :=
  ⟨rfl, rfl, rfl⟩

/-- Witness for C5's amended fallback totality at a concrete store output
with one well-formed finding. -/
theorem c5_fallback_totality_witness :
    (generate_final_report (initState 10 "OP") .raises
        (.output (.vlist [.vdict [("metadata", .vdict [("category", .vstr "finding")]),
                                  ("memory", .vstr "found x")]]))
        "tgt" "obj" "/data/out" ⟨2026, 10, 12, 1, 2, 3⟩ true).2.2 = none ∧
    countFileWrites (generate_final_report (initState 10 "OP") .raises
        (.output (.vlist [.vdict [("metadata", .vdict [("category", .vstr "finding")]),
                                  ("memory", .vstr "found x")]]))
        "tgt" "obj" "/data/out" ⟨2026, 10, 12, 1, 2, 3⟩ true).2.1 = 1 := by
  have hx := c5_fallback_totality (initState 10 "OP")
    (.output (.vlist [.vdict [("metadata", .vdict [("category", .vstr "finding")]),
                              ("memory", .vstr "found x")]]))
    "tgt" "obj" "/data/out" ⟨2026, 10, 12, 1, 2, 3⟩ rfl
    (by
      have hl : (retrieve_evidence (.output (.vlist [.vdict
            [("metadata", .vdict [("category", .vstr "finding")]),
             ("memory", .vstr "found x")]]))).2.1
          = [⟨Value.vstr "found x", Value.vdict [("category", Value.vstr "finding")]⟩] := rfl
      rw [hl]
      simp)
    (by
      intro m hm
      have hm2 : m = ⟨.vstr "found x", .vdict [("category", .vstr "finding")]⟩ := by
        cases hm with
        | head => rfl
        | tail _ h2 => cases h2
      subst hm2
      exact ⟨⟨"found x", rfl⟩, [("category", .vstr "finding")], rfl, "finding", rfl⟩)
  exact ⟨hx.1.1, hx.1.2.1⟩

/-- C4: `generate_final_report` is idempotent through the
`report_generated` flag: a call on a state with the flag set is a strict
no-op with no effects; after any completed first call, a second call with
arbitrary arguments returns the state unchanged with no evidence read, no
oracle invocation and no write; and a completed first call on a fresh state
persists exactly one file. -/
theorem c4_report_idempotent :
    (∀ (st : HandlerState) (oracle : OracleBehavior) (mo : MemOutcome)
       (target objective outDir : String) (now : DT) (fsOk : Bool),
      st.report_generated = true →
      generate_final_report st oracle mo target objective outDir now fsOk
        = (st, [], none)) ∧
    (∀ (st : HandlerState) (oracle : OracleBehavior) (mo : MemOutcome)
       (target objective outDir : String) (now : DT) (fsOk : Bool)
       (oracle2 : OracleBehavior) (mo2 : MemOutcome)
       (target2 objective2 outDir2 : String) (now2 : DT) (fsOk2 : Bool),
      generate_final_report
          (generate_final_report st oracle mo target objective outDir now fsOk).1
          oracle2 mo2 target2 objective2 outDir2 now2 fsOk2
        = ((generate_final_report st oracle mo target objective outDir now fsOk).1,
           [], none)) ∧
    (∀ (st : HandlerState) (oracle : OracleBehavior) (mo : MemOutcome)
       (target objective outDir : String) (now : DT),
      st.report_generated = false →
      (generate_final_report st oracle mo target objective outDir now true).2.2 = none →
      countFileWrites
        (generate_final_report st oracle mo target objective outDir now true).2.1 = 1) := by
  refine ⟨?_, ?_, ?_⟩
  · intro st oracle mo t o d now fsOk h
    exact generate_final_report_noop st oracle mo t o d now fsOk h
  · intro st oracle mo t o d now fsOk oracle2 mo2 t2 o2 d2 now2 fsOk2
    exact generate_final_report_noop _ oracle2 mo2 t2 o2 d2 now2 fsOk2
      (generate_final_report_flag st oracle mo t o d now fsOk)
  · intro st oracle mo t o d now hgen hexn
    exact generate_final_report_one_write st oracle mo t o d now hgen hexn

/-- Witness for C4 at a concrete double call: the first call writes once,
the second (with different arguments) is a strict no-op. -/
theorem c4_report_idempotent_witness :
    generate_final_report
        (generate_final_report (initState 10 "OP") (.returns "body") .noClient
          "tgt" "obj" "/data/out" ⟨2026, 10, 12, 1, 2, 3⟩ true).1
        .raises (.output c5BadMemOut) "x" "y" "/other" ⟨2027, 1, 1, 0, 0, 0⟩ false
      = ((generate_final_report (initState 10 "OP") (.returns "body") .noClient
          "tgt" "obj" "/data/out" ⟨2026, 10, 12, 1, 2, 3⟩ true).1, [], none) ∧
    countFileWrites (generate_final_report (initState 10 "OP") (.returns "body") .noClient
        "tgt" "obj" "/data/out" ⟨2026, 10, 12, 1, 2, 3⟩ true).2.1 = 1 := by
  constructor
  · exact c4_report_idempotent.2.1 (initState 10 "OP") (.returns "body") .noClient
      "tgt" "obj" "/data/out" ⟨2026, 10, 12, 1, 2, 3⟩ true
      .raises (.output c5BadMemOut) "x" "y" "/other" ⟨2027, 1, 1, 0, 0, 0⟩ false
  · exact c4_report_idempotent.2.2 (initState 10 "OP") (.returns "body") .noClient
      "tgt" "obj" "/data/out" ⟨2026, 10, 12, 1, 2, 3⟩ rfl rfl

/-- C1: a valid invocation id delivered through both the streaming
announcement and a composite message event, in either order, is rendered
exactly once and counted exactly once as a step; the second delivery of the
same id leaves the shown-id set, the step counter and all other statistics
unchanged. -/
theorem c1_dedup_across_channels (st : HandlerState) (tu : ToolUse)
    (hflag : st.step_limit_reached = false) (hlt : st.steps < st.max_steps)
    (hvalid : is_valid_tool_use tu.name tu.input = .ok true)
    (hnew : st.shown_tools.contains tu.toolUseId = false) :
    ((handlerCall st (.currentToolUse tu)).1.steps = st.steps + 1 ∧
     countToolExec tu.toolUseId (handlerCall st (.currentToolUse tu)).1.rendered
       = countToolExec tu.toolUseId st.rendered + 1 ∧
     statsOf (handlerCall (handlerCall st (.currentToolUse tu)).1
         (.message [.toolUseBlock tu])).1
       = statsOf (handlerCall st (.currentToolUse tu)).1) ∧
    ((handlerCall st (.message [.toolUseBlock tu])).1.steps = st.steps + 1 ∧
     countToolExec tu.toolUseId (handlerCall st (.message [.toolUseBlock tu])).1.rendered
       = countToolExec tu.toolUseId st.rendered + 1 ∧
     handlerCall (handlerCall st (.message [.toolUseBlock tu])).1 (.currentToolUse tu)
       = ((handlerCall st (.message [.toolUseBlock tu])).1, none)) := by
  obtain ⟨a1, a2, a3, a4, a5, a6, a7, a8, a9, a10, a11⟩ :=
    handlerCall_stream_new st tu hflag hlt hvalid hnew
  obtain ⟨b1, b2, b3, b4, b5, b6, b7, b8, b9, b10, b11⟩ :=
    handlerCall_message_new st tu hflag hlt hvalid hnew
  have hdupA : (handlerCall st (.currentToolUse tu)).1.shown_tools.contains tu.toolUseId
      = true := by
    rw [a3]; simp
  have hdupB : (handlerCall st (.message [.toolUseBlock tu])).1.shown_tools.contains
      tu.toolUseId = true := by
    rw [b3]; simp
  refine ⟨⟨a1, a10, ?_⟩, b1, b10, ?_⟩
  · rw [handlerCall_message_dup _ tu a5 hdupA]
    rfl
  · exact handlerCall_stream_dup _ tu true b5 hvalid hdupB

/-- Witness for C1 at a concrete state: one valid shell invocation, delivered
on the streaming channel and then again inside a message, is counted once
and the second delivery changes no statistic. -/
theorem c1_dedup_across_channels_witness :
    (handlerCall (initState 5 "OP") (.currentToolUse (shellInvocation "t1"))).1.steps
      = (initState 5 "OP").steps + 1 ∧
    statsOf (handlerCall (handlerCall (initState 5 "OP")
        (.currentToolUse (shellInvocation "t1"))).1
        (.message [.toolUseBlock (shellInvocation "t1")])).1
      = statsOf (handlerCall (initState 5 "OP")
          (.currentToolUse (shellInvocation "t1"))).1 := by
  have hx := c1_dedup_across_channels (initState 5 "OP") (shellInvocation "t1")
    rfl (by decide) (by rfl) (by rfl)
  exact ⟨hx.1.1, hx.1.2.2⟩

/-- C2: with the budget already exhausted, a new valid non-duplicate
invocation sets the limit flag, renders the limit notice, raises
StopIteration without incrementing the counter, and afterwards every call
is a no-op; concretely, with limit 3, after three valid distinct
invocations the counter is 3 with the flag still down, and the fourth
invocation raises StopIteration with the counter left at 3. -/
theorem c2_budget_interrupt (st : HandlerState) (tu : ToolUse)
    (hflag : st.step_limit_reached = false) (hmax : st.max_steps ≤ st.steps)
    (hvalid : is_valid_tool_use tu.name tu.input = .ok true)
    (hnew : st.shown_tools.contains tu.toolUseId = false) :
    ((handlerCall st (.currentToolUse tu)).2 = some PyErr.stopIteration ∧
     (handlerCall st (.currentToolUse tu)).1.step_limit_reached = true ∧
     countLimitNotice (handlerCall st (.currentToolUse tu)).1.rendered
       = countLimitNotice st.rendered + 1 ∧
     (handlerCall st (.currentToolUse tu)).1.steps = st.steps ∧
     (∀ e, handlerCall (handlerCall st (.currentToolUse tu)).1 e
        = ((handlerCall st (.currentToolUse tu)).1, none))) ∧
    (c2ThreeSteps.steps = 3 ∧
     c2ThreeSteps.step_limit_reached = false ∧
     (handlerCall c2ThreeSteps (.currentToolUse (shellInvocation "t4"))).2
       = some PyErr.stopIteration ∧
     (handlerCall c2ThreeSteps (.currentToolUse (shellInvocation "t4"))).1.steps = 3) := by
  obtain ⟨l1, l2, l3, l4, l5, l6, l7⟩ :=
    handlerCall_stream_limit st tu hflag hmax hvalid hnew
  exact ⟨⟨l1, l5, l6, l2, fun e => handlerCall_noop_of_limit _ e l5⟩,
    rfl, rfl, rfl, rfl⟩

/-- Witness for C2 at a concrete state: limit 0 is already exhausted at the
first invocation, which raises StopIteration without counting a step. -/
theorem c2_budget_interrupt_witness :
    (handlerCall (initState 0 "OP") (.currentToolUse (shellInvocation "t1"))).2
      = some PyErr.stopIteration ∧
    (handlerCall (initState 0 "OP") (.currentToolUse (shellInvocation "t1"))).1.steps
      = (initState 0 "OP").steps := by
  have hx := c2_budget_interrupt (initState 0 "OP") (shellInvocation "t1")
    rfl (by decide) (by rfl) (by rfl)
  exact ⟨hx.1.1, hx.1.2.2.2.1⟩

/-- C9 counterexample: at the reachable state after one valid invocation
under limit 1, should_stop is true while both the limit flag and the
stop-tool flag are false, so should_stop is not the disjunction of the two
flags. -/
theorem c9_counterexample :
    Reachable c9State ∧ should_stop c9State = true ∧
    c9State.step_limit_reached = false ∧ c9State.stop_tool_used = false :=
  ⟨Reachable.step (.currentToolUse (shellInvocation "t1")) (Reachable.init 1 "OP"),
   rfl, rfl, rfl⟩

/-- C9 (amended): should_stop is the disjunction of budget exhaustion
(steps having reached the limit) — not of the limit flag — with the
stop-tool flag; at reachable states the limit flag still implies
should_stop; the stop-tool flag originates only from events delivering the
designated stop tool; and a validly recorded stop-tool invocation sets it. -/
theorem c9_should_stop (st : HandlerState) (e : Event) (tu : ToolUse)
    (hflag : st.step_limit_reached = false) (hlt : st.steps < st.max_steps)
    (hvalid : is_valid_tool_use tu.name tu.input = .ok true)
    (hnew : st.shown_tools.contains tu.toolUseId = false) :
    (should_stop st = true ↔ st.max_steps ≤ st.steps ∨ st.stop_tool_used = true) ∧
    (∀ st2 : HandlerState, Reachable st2 → st2.step_limit_reached = true →
      should_stop st2 = true) ∧
    ((handlerCall st e).1.stop_tool_used = true →
      st.stop_tool_used = true ∨ eventDeliversStop e) ∧
    (handlerCall st (.currentToolUse tu)).1.stop_tool_used
      = (st.stop_tool_used || (tu.name == "stop")) := by
  refine ⟨?_, ?_, handlerCall_stop_only st e, ?_⟩
  · simp [should_stop, has_reached_limit]
  · intro st2 h2 hf
    have hx := reachable_invB h2 hf
    simp [should_stop, has_reached_limit, hx]
  · exact (handlerCall_stream_new st tu hflag hlt hvalid hnew).2.2.2.2.2.2.2.2.1

/-- Witness for C9's amended characterisation: a concrete valid stop-tool
invocation sets the stop flag. -/
theorem c9_should_stop_witness :
    (handlerCall (initState 5 "OP")
        (.currentToolUse ⟨"s1", "stop", .vdict [("reason", .vstr "done")]⟩)).1.stop_tool_used
      = true := by
  have hx := c9_should_stop (initState 5 "OP")
    (.currentToolUse ⟨"s1", "stop", .vdict [("reason", .vstr "done")]⟩)
    ⟨"s1", "stop", .vdict [("reason", .vstr "done")]⟩ rfl (by decide) (by rfl) (by rfl)
  rw [hx.2.2.2]
  rfl

/-- C10: the budget interrupt is not atomic — on either delivery channel the
triggering id is already in the dedup set and the id map when StopIteration
propagates, the step counter is unchanged, nothing new is rendered for the
id, and every subsequent event (in particular any redelivery of the id) is
a no-op. -/
theorem c10_nonatomic_interrupt (st : HandlerState) (tu : ToolUse)
    (hflag : st.step_limit_reached = false) (hmax : st.max_steps ≤ st.steps)
    (hvalid : is_valid_tool_use tu.name tu.input = .ok true)
    (hnew : st.shown_tools.contains tu.toolUseId = false) :
    ((handlerCall st (.currentToolUse tu)).2 = some PyErr.stopIteration ∧
     (handlerCall st (.currentToolUse tu)).1.shown_tools.contains tu.toolUseId = true ∧
     lookupAssoc (handlerCall st (.currentToolUse tu)).1.tool_use_map tu.toolUseId
       = some tu ∧
     (handlerCall st (.currentToolUse tu)).1.steps = st.steps ∧
     (∀ id, countToolExec id (handlerCall st (.currentToolUse tu)).1.rendered
        = countToolExec id st.rendered) ∧
     (∀ es, (runEvents (handlerCall st (.currentToolUse tu)).1 es).1
        = (handlerCall st (.currentToolUse tu)).1)) ∧
    ((handlerCall st (.message [.toolUseBlock tu])).2 = some PyErr.stopIteration ∧
     (handlerCall st (.message [.toolUseBlock tu])).1.shown_tools.contains tu.toolUseId
       = true ∧
     lookupAssoc (handlerCall st (.message [.toolUseBlock tu])).1.tool_use_map
       tu.toolUseId = some tu ∧
     (handlerCall st (.message [.toolUseBlock tu])).1.steps = st.steps ∧
     (∀ es, (runEvents (handlerCall st (.message [.toolUseBlock tu])).1 es).1
        = (handlerCall st (.message [.toolUseBlock tu])).1)) := by
  obtain ⟨s1, s2, s3, s4, s5, s6, s7⟩ :=
    handlerCall_stream_limit st tu hflag hmax hvalid hnew
  obtain ⟨m1, m2, m3, m4, m5, m6, m7⟩ :=
    handlerCall_message_limit st tu hflag hmax hvalid hnew
  refine ⟨⟨s1, by rw [s3]; simp, s4, s2, s7,
      fun es => runEvents_noop_of_limit _ es s5⟩,
    m1, by rw [m3]; simp, m4, m2, fun es => runEvents_noop_of_limit _ es m5⟩

/-- Witness for C10 at a concrete state: with limit 0 the first invocation
raises StopIteration, yet its id is already recorded as shown. -/
theorem c10_nonatomic_interrupt_witness :
    (handlerCall (initState 0 "OP") (.currentToolUse (shellInvocation "t9"))).2
      = some PyErr.stopIteration ∧
    (handlerCall (initState 0 "OP")
        (.currentToolUse (shellInvocation "t9"))).1.shown_tools.contains "t9" = true ∧
    (handlerCall (initState 0 "OP") (.currentToolUse (shellInvocation "t9"))).1.steps
      = (initState 0 "OP").steps := by
  have hx := c10_nonatomic_interrupt (initState 0 "OP") (shellInvocation "t9")
    rfl (by decide) (by rfl) (by rfl)
  exact ⟨hx.1.1, hx.1.2.1, hx.1.2.2.2.1⟩
